import Mathlib

/-!
Shallow embedding of the shardplate_3d_print segmentation and
assembly-feature pipeline (src/shardplate_generator/utils/blender_utils.py
and src/shardplate_generator/armor_pieces/base.py, gauntlets.py).

Modelling conventions:
* A Blender object is a `Mesh`: an integer handle id, a mutable name, and
  a `Geom` holding the local bound-box corners (`bound_box[0]` and
  `bound_box[6]`), the object location, and the baked image of the local
  +Z axis (used to reason about cylinder orientation).  `obj.dimensions`
  is the bound-box extent, as Blender reports for an object with baked
  transforms.
* The mesh backend's CSG kernel is external; a `Backend` supplies the
  geometry of a boolean difference / union result.  All code under
  verification is parameterised over it.
* Every scene-mutating or attribute-reading operation appends an `Event`
  to the `Scene` trace, in the order the Python source performs it, so
  that ordering properties (reads after removal, connector insertion
  order, mirroring after generation) are statable.
* Scalars are exact rationals; the source's floats (0.002, 0.15, ...) are
  carried verbatim as rational literals.
* Euler-angle rotation is modelled exactly for the right-angle rotations
  the verified call sites use (the orientation branch of the alignment-pin
  functions only ever rotates by 0 or 90 degrees).
-/

namespace Shardplate

/-- A 3-vector of exact rationals. -/
structure Vec3 where
  x : ℚ
  y : ℚ
  z : ℚ
deriving DecidableEq

def Vec3.zero : Vec3 := ⟨0, 0, 0⟩

/-- Python-style indexed read `v[i]` for axis index 0, 1, 2. -/
def Vec3.get (v : Vec3) : Nat → ℚ
  | 0 => v.x
  | 1 => v.y
  | _ => v.z

/-- Python-style indexed write `v[i] = q` for axis index 0, 1, 2. -/
def Vec3.set (v : Vec3) : Nat → ℚ → Vec3
  | 0, q => ⟨q, v.y, v.z⟩
  | 1, q => ⟨v.x, q, v.z⟩
  | _, q => ⟨v.x, v.y, q⟩

def Vec3.add (a b : Vec3) : Vec3 := ⟨a.x + b.x, a.y + b.y, a.z + b.z⟩

def Vec3.sub (a b : Vec3) : Vec3 := ⟨a.x - b.x, a.y - b.y, a.z - b.z⟩

def Vec3.neg (a : Vec3) : Vec3 := ⟨-a.x, -a.y, -a.z⟩

def Vec3.cross (a b : Vec3) : Vec3 :=
  ⟨a.y * b.z - a.z * b.y, a.z * b.x - a.x * b.z, a.x * b.y - a.y * b.x⟩

/-- Two direction vectors are parallel (as lines) when their cross
product vanishes. -/
def parallelVec (a b : Vec3) : Prop := a.cross b = Vec3.zero

instance (a b : Vec3) : Decidable (parallelVec a b) := by
  unfold parallelVec; infer_instance

def qmin (a b : ℚ) : ℚ := if a ≤ b then a else b

def qmax (a b : ℚ) : ℚ := if a ≤ b then b else a

def Vec3.cmin (a b : Vec3) : Vec3 := ⟨qmin a.x b.x, qmin a.y b.y, qmin a.z b.z⟩

def Vec3.cmax (a b : Vec3) : Vec3 := ⟨qmax a.x b.x, qmax a.y b.y, qmax a.z b.z⟩

/-- Largest component of a vector, `max(obj.dimensions)` in the source. -/
def Vec3.maxComp (v : Vec3) : ℚ := qmax v.x (qmax v.y v.z)

/-- Geometry state of a Blender object: local bound-box corners 0 and 6,
object location, and the baked direction of the local +Z axis. -/
structure Geom where
  bbMin : Vec3
  bbMax : Vec3
  loc : Vec3
  axisZ : Vec3
deriving DecidableEq

/-- A Blender object handle: identity, name, geometry. -/
structure Mesh where
  id : Nat
  name : String
  geom : Geom
deriving DecidableEq

/-- Blender's `obj.dimensions`: bound-box extent per axis (scene units,
meters). -/
def Mesh.dimensions (m : Mesh) : Vec3 := m.geom.bbMax.sub m.geom.bbMin

/-- Scene-level operations and attribute reads, recorded in source order. -/
inductive Event where
  | createCube (id : Nat) (size : ℚ) (location : Vec3)
  | createCylinder (id : Nat) (radius depth : ℚ) (location : Vec3)
  | rotateObj (id : Nat) (eulerDeg : Vec3)
  | duplicateObj (src newId : Nat) (newName : String)
  | mirrorObj (src newId : Nat) (axis : String) (newName : String)
  | booleanDiff (a b : Nat)
  | booleanUnion (a b : Nat)
  | removeObj (id : Nat)
  | readDims (id : Nat)
  | readBBox (id : Nat)
  | pinHoleCall (target : Nat) (location direction : Vec3) (diameter depth : ℚ)
  | pinPostCall (target : Nat) (location direction : Vec3) (diameter height clearance : ℚ)
  | exportStl (id : Nat) (path : String)
deriving DecidableEq

/-- The shared modeling-session state: a fresh-handle counter and the
ordered event trace. -/
structure Scene where
  nextId : Nat
  events : List Event
deriving DecidableEq

def Scene.emit (s : Scene) (e : Event) : Scene :=
  { s with events := s.events ++ [e] }

def Scene.fresh (s : Scene) : Nat × Scene :=
  (s.nextId, { s with nextId := s.nextId + 1 })

/-- The external CSG kernel: geometry of boolean results.  It sees only
geometry, never handle ids or names. -/
structure Backend where
  diffGeom : Geom → Geom → Geom
  unionGeom : Geom → Geom → Geom

/-! ### Primitive operations (BlenderContext methods) -/

/-- `create_cube(size, location, name)`: a cube primitive centered at
`location` with local bound box `[-size/2, size/2]` per axis. -/
def cube_geom (size : ℚ) (location : Vec3) : Geom :=
  ⟨⟨-(size / 2), -(size / 2), -(size / 2)⟩, ⟨size / 2, size / 2, size / 2⟩,
    location, ⟨0, 0, 1⟩⟩

def create_cube (size : ℚ) (location : Vec3) (nm : String) (s : Scene) : Mesh × Scene :=
  let (i, s) := s.fresh
  (⟨i, nm, cube_geom size location⟩, s.emit (.createCube i size location))

/-- `create_cylinder(radius, depth, location, vertices, name)`: a Z-axis
cylinder centered at `location`. -/
def cylinder_geom (radius depth : ℚ) (location : Vec3) : Geom :=
  ⟨⟨-radius, -radius, -(depth / 2)⟩, ⟨radius, radius, depth / 2⟩, location, ⟨0, 0, 1⟩⟩

def create_cylinder (radius depth : ℚ) (location : Vec3) (nm : String) (s : Scene) :
    Mesh × Scene :=
  let (i, s) := s.fresh
  (⟨i, nm, cylinder_geom radius depth location⟩, s.emit (.createCylinder i radius depth location))

/-- Exact degree cosine on the right angles used by the verified call
sites (0 and 90 degrees, plus 180/270 for closure); other angles do not
occur in the modelled code paths. -/
def cosd (a : ℚ) : ℚ :=
  if a = 0 then 1 else if a = 90 then 0 else if a = 180 then -1 else if a = 270 then 0 else 0

/-- Exact degree sine on right angles; companion of `cosd`. -/
def sind (a : ℚ) : ℚ :=
  if a = 0 then 0 else if a = 90 then 1 else if a = 180 then 0 else if a = 270 then -1 else 0

def rotXdeg (a : ℚ) (v : Vec3) : Vec3 :=
  ⟨v.x, cosd a * v.y - sind a * v.z, sind a * v.y + cosd a * v.z⟩

def rotYdeg (a : ℚ) (v : Vec3) : Vec3 :=
  ⟨cosd a * v.x + sind a * v.z, v.y, -(sind a) * v.x + cosd a * v.z⟩

def rotZdeg (a : ℚ) (v : Vec3) : Vec3 :=
  ⟨cosd a * v.x - sind a * v.y, sind a * v.x + cosd a * v.y, v.z⟩

/-- Blender XYZ Euler order: rotate about X, then Y, then Z. -/
def rotEulerXYZ (e : Vec3) (v : Vec3) : Vec3 := rotZdeg e.z (rotYdeg e.y (rotXdeg e.x v))

/-- `rotate_object(obj, rotation, degrees=True)`: bakes a rotation about
the object origin into the mesh data.  For the right-angle rotations used
here, the rotated box stays axis-aligned, so the new bound box is the
componentwise min/max of the two rotated corners. -/
def rot_geom (eulerDeg : Vec3) (g : Geom) : Geom :=
  let p := rotEulerXYZ eulerDeg g.bbMin
  let q := rotEulerXYZ eulerDeg g.bbMax
  ⟨p.cmin q, p.cmax q, g.loc, rotEulerXYZ eulerDeg g.axisZ⟩

def rotate_object (m : Mesh) (eulerDeg : Vec3) (s : Scene) : Mesh × Scene :=
  ({ m with geom := rot_geom eulerDeg m.geom }, s.emit (.rotateObj m.id eulerDeg))

/-- `duplicate_object(obj, name)`: `obj.copy()` linked into the scene,
optionally renamed.  The copy has a fresh handle id and the same
geometry. -/
def duplicate_object (m : Mesh) (nm : Option String) (s : Scene) : Mesh × Scene :=
  let (i, s) := s.fresh
  let newName := nm.getD m.name
  ({ m with id := i, name := newName }, s.emit (.duplicateObj m.id i newName))

/-- `boolean_difference(obj1, obj2, name)`: applies a DIFFERENCE modifier
to `obj1` (same handle, new geometry from the backend), then removes
`obj2` from the scene. -/
def boolean_difference (B : Backend) (obj1 obj2 : Mesh) (nm : Option String) (s : Scene) :
    Mesh × Scene :=
  ({ obj1 with name := nm.getD obj1.name, geom := B.diffGeom obj1.geom obj2.geom },
   (s.emit (.booleanDiff obj1.id obj2.id)).emit (.removeObj obj2.id))

/-- `boolean_union(obj1, obj2, name)`: UNION modifier on `obj1`, then
`obj2` is removed. -/
def boolean_union (B : Backend) (obj1 obj2 : Mesh) (nm : Option String) (s : Scene) :
    Mesh × Scene :=
  ({ obj1 with name := nm.getD obj1.name, geom := B.unionGeom obj1.geom obj2.geom },
   (s.emit (.booleanUnion obj1.id obj2.id)).emit (.removeObj obj2.id))

/-- X-axis mirror of a geometry: scale (-1, 1, 1) baked into the mesh
data; the bound box x-range negates and swaps, the location is kept. -/
def Geom.mirrorX (g : Geom) : Geom :=
  { bbMin := ⟨-g.bbMax.x, g.bbMin.y, g.bbMin.z⟩,
    bbMax := ⟨-g.bbMin.x, g.bbMax.y, g.bbMax.z⟩,
    loc := g.loc,
    axisZ := ⟨-g.axisZ.x, g.axisZ.y, g.axisZ.z⟩ }

def Geom.mirrorY (g : Geom) : Geom :=
  { bbMin := ⟨g.bbMin.x, -g.bbMax.y, g.bbMin.z⟩,
    bbMax := ⟨g.bbMax.x, -g.bbMin.y, g.bbMax.z⟩,
    loc := g.loc,
    axisZ := ⟨g.axisZ.x, -g.axisZ.y, g.axisZ.z⟩ }

def Geom.mirrorZ (g : Geom) : Geom :=
  { bbMin := ⟨g.bbMin.x, g.bbMin.y, -g.bbMax.z⟩,
    bbMax := ⟨g.bbMax.x, g.bbMax.y, -g.bbMin.z⟩,
    loc := g.loc,
    axisZ := ⟨g.axisZ.x, g.axisZ.y, -g.axisZ.z⟩ }

/-- `mirror_object(obj, axis, name)`: duplicate, then bake a -1 scale on
the chosen axis (the source looks `axis.upper()` up in an `{X, Y, Z}`
table; the case-insensitive lookup is embedded as direct comparisons);
unknown axis labels leave the duplicate unchanged. -/
def mirror_object (m : Mesh) (axis : String) (nm : Option String) (s : Scene) :
    Mesh × Scene :=
  let (new_obj, s) := duplicate_object m nm s
  if axis = "X" ∨ axis = "x" then
    ({ new_obj with geom := new_obj.geom.mirrorX },
     s.emit (.mirrorObj m.id new_obj.id axis new_obj.name))
  else if axis = "Y" ∨ axis = "y" then
    ({ new_obj with geom := new_obj.geom.mirrorY },
     s.emit (.mirrorObj m.id new_obj.id axis new_obj.name))
  else if axis = "Z" ∨ axis = "z" then
    ({ new_obj with geom := new_obj.geom.mirrorZ },
     s.emit (.mirrorObj m.id new_obj.id axis new_obj.name))
  else (new_obj, s)

/-- `get_object_dimensions_mm(obj)`: bound-box extents in millimeters
(scene units are meters, hence the factor 1000); reads
`obj.dimensions`. -/
def get_object_dimensions_mm (m : Mesh) (s : Scene) : Vec3 × Scene :=
  let dims := m.dimensions
  (⟨dims.x * 1000, dims.y * 1000, dims.z * 1000⟩, s.emit (.readDims m.id))

/-! ### Assembly feature methods -/

/-- Hole socket radius, verbatim from `create_alignment_pin_hole`:
`radius = diameter / 2`. -/
def pin_hole_radius (diameter : ℚ) : ℚ := diameter / 2

/-- Post radius, verbatim from `create_alignment_pin_post`:
`radius = diameter / 2 - clearance` (0.1mm undersize by default). -/
def pin_post_radius (diameter clearance : ℚ) : ℚ := diameter / 2 - clearance

/-- The direction-to-rotation branch shared verbatim by
`create_alignment_pin_hole` and `create_alignment_pin_post`: (1,0,0)
rotates (0,90,0); (0,1,0) rotates (90,0,0); every other direction is left
in the default (no-rotation) orientation. -/
def orient_pin_cylinder (pin : Mesh) (direction : Vec3) (s : Scene) : Mesh × Scene :=
  if direction = ⟨1, 0, 0⟩ then rotate_object pin ⟨0, 90, 0⟩ s
  else if direction = ⟨0, 1, 0⟩ then rotate_object pin ⟨90, 0, 0⟩ s
  else (pin, s)

/-- `create_alignment_pin_hole(obj, location, direction, diameter=0.002,
depth=0.003)`: cuts a socket with a cylinder of radius `diameter/2` and
depth `2*depth` centered at `location`, oriented by the direction branch.
The entry event records the call's arguments. -/
def create_alignment_pin_hole (B : Backend) (obj : Mesh) (location direction : Vec3)
    (diameter depth : ℚ) (s : Scene) : Mesh × Scene :=
  let s := s.emit (.pinHoleCall obj.id location direction diameter depth)
  let radius := pin_hole_radius diameter
  let (pin_hole, s) := create_cylinder radius (depth * 2) location "AlignPinHole" s
  let (pin_hole, s) := orient_pin_cylinder pin_hole direction s
  boolean_difference B obj pin_hole none s

/-- `create_alignment_pin_post(obj, location, direction, diameter=0.002,
height=0.003, clearance=0.0001)`: unions a post cylinder of radius
`diameter/2 - clearance` and depth `height` at `location`, oriented by the
same direction branch as the hole. -/
def create_alignment_pin_post (B : Backend) (obj : Mesh) (location direction : Vec3)
    (diameter height clearance : ℚ) (s : Scene) : Mesh × Scene :=
  let s := s.emit (.pinPostCall obj.id location direction diameter height clearance)
  let radius := pin_post_radius diameter clearance
  let (pin_post, s) := create_cylinder radius height location "AlignPinPost" s
  let (pin_post, s) := orient_pin_cylinder pin_post direction s
  boolean_union B obj pin_post none s

/-! ### Build-plate splitter -/

/-- Insert into a descending-sorted list, keeping earlier elements first
among equal keys. -/
def insertDescBy (p : ℚ × Nat) : List (ℚ × Nat) → List (ℚ × Nat)
  | [] => [p]
  | q :: t => if q.1 ≤ p.1 then p :: q :: t else q :: insertDescBy p t

/-- Semantics of Python's `list.sort(key=lambda x: x[0], reverse=True)`:
a stable sort, descending on the first component (structurally recursive
so proofs and witnesses can evaluate it). -/
def sortDescStable : List (ℚ × Nat) → List (ℚ × Nat)
  | [] => []
  | p :: t => insertDescBy p (sortDescStable t)

/-- Lines 484-492 of blender_utils.py: build the per-axis oversize list,
stable-sort it descending, and take the first entry
`(max_over, split_axis)`. -/
def choose_split (dims_mm plate_dims : Vec3) : ℚ × Nat :=
  (sortDescStable [(dims_mm.x - plate_dims.x, 0), (dims_mm.y - plate_dims.y, 1),
    (dims_mm.z - plate_dims.z, 2)]).headI

/-- World-space bound-box corner, lines 499-500 of blender_utils.py:
`bound_box[corner][i] + location[i]`. -/
def Mesh.bbox_min (m : Mesh) : Vec3 := m.geom.bbMin.add m.geom.loc

def Mesh.bbox_max (m : Mesh) : Vec3 := m.geom.bbMax.add m.geom.loc

/-- Midpoint of the world-space bound box along the split axis. -/
def cut_midpoint (obj : Mesh) (split_axis : Nat) : ℚ :=
  (obj.bbox_min.get split_axis + obj.bbox_max.get split_axis) / 2

/-- Lines 498-521 of blender_utils.py: duplicate the mesh twice, cut
each duplicate with an oversized cube cutter on one side of the
midpoint, and remove the original handle. -/
def cut_halves (B : Backend) (obj : Mesh) (bn : String) (split_axis : Nat) (s : Scene) :
    Mesh × Mesh × Scene :=
  let s := s.emit (.readBBox obj.id)
  let midpoint := cut_midpoint obj split_axis
  let s := s.emit (.readDims obj.id)
  let max_dim := obj.dimensions.maxComp * 2
  let cut_loc_1 := Vec3.zero.set split_axis (midpoint - max_dim / 2)
  let d1 := duplicate_object obj (some (bn ++ "_sec1")) s
  let c1 := create_cube max_dim cut_loc_1 "Cutter1" d1.2
  let b1 := boolean_difference B d1.1 c1.1 none c1.2
  let cut_loc_2 := Vec3.zero.set split_axis (midpoint + max_dim / 2)
  let d2 := duplicate_object obj (some (bn ++ "_sec2")) b1.2
  let c2 := create_cube max_dim cut_loc_2 "Cutter2" d2.2
  let b2 := boolean_difference B d2.1 c2.1 none c2.2
  (b1.1, b2.1, b2.2.emit (.removeObj obj.id))

/-- Lines 523-531 of blender_utils.py: one pin offset per non-split
axis, on the cut plane, off-center by 15% of that axis's extent — note
each iteration reads `obj.dimensions` (the handle was already removed by
line 521). -/
def pin_offsets_stage (obj : Mesh) (split_axis : Nat) (s : Scene) : List Vec3 × Scene :=
  let midpoint := cut_midpoint obj split_axis
  let other_axes := ([0, 1, 2].filter (fun a => a ≠ split_axis))
  other_axes.foldl (fun (acc : List Vec3 × Scene) ax =>
    let s := acc.2.emit (.readDims obj.id)
    let offset := (Vec3.zero.set split_axis midpoint).set ax
      ((obj.bbox_min.get ax + obj.bbox_max.get ax) / 2 + obj.dimensions.get ax * 0.15)
    (acc.1 ++ [offset], s)) ([], s)

/-- Lines 537-539 of blender_utils.py: at each pin location, cut a hole
into the first half and union a post onto the second half, both with
`direction=pin_dir_tuple`. -/
def add_pin_pairs (B : Backend) (half1 half2 : Mesh) (pin_offsets : List Vec3)
    (pin_dir_tuple : Vec3) (s : Scene) : Mesh × Mesh × Scene :=
  pin_offsets.foldl (fun (acc : Mesh × Mesh × Scene) pin_loc =>
    let h1 := create_alignment_pin_hole B acc.1 pin_loc pin_dir_tuple 0.002 0.003 acc.2.2
    let h2 := create_alignment_pin_post B acc.2.1 pin_loc pin_dir_tuple 0.002 0.003 0.0001 h1.2
    (h1.1, h2.1, h2.2)) (half1, half2, s)

/-- Lines 498-539 of blender_utils.py, the non-recursive body of one
split: midpoint cut of the chosen axis via two oversized cube cutters,
removal of the original handle, then two alignment-pin pairs at the cut
face; the pin direction is the split axis's unit vector for both holes
and posts.  Returns the two pinned halves and the scene. -/
def split_step (B : Backend) (obj : Mesh) (bn : String) (split_axis : Nat) (s : Scene) :
    Mesh × Mesh × Scene :=
  let ch := cut_halves B obj bn split_axis s
  let pres := pin_offsets_stage obj split_axis ch.2.2
  let pin_dir_tuple := Vec3.zero.set split_axis 1
  add_pin_pairs B ch.1 ch.2.1 pres.1 pin_dir_tuple pres.2

/-- Body of `split_object_for_plate`, structurally recursive on the
number of split levels still allowed (`5 - _depth`; the source's
`_depth > 4` guard is the `0` case): dimension check, axis selection,
fit terminal case, one `split_step`, and recursion on the two halves
with `_sec1`/`_sec2` base names. -/
def split_levels (B : Backend) (obj : Mesh) (plate_x plate_y plate_z : ℚ)
    (base_name : Option String) (levels : Nat) (s : Scene) :
    List (String × Mesh) × Scene :=
  match levels with
  | 0 =>
    ([(base_name.getD obj.name, obj)], s)
  | lev + 1 =>
    let bn := base_name.getD obj.name
    let dres := get_object_dimensions_mm obj s
    let dims_mm := dres.1
    let s := dres.2
    let ms := choose_split dims_mm ⟨plate_x, plate_y, plate_z⟩
    let max_over := ms.1
    let split_axis := ms.2
    if max_over ≤ 0 then
      ([(bn, obj)], s)
    else
      let st := split_step B obj bn split_axis s
      let r1 := split_levels B st.1 plate_x plate_y plate_z
        (some (bn ++ "_sec1")) lev st.2.2
      let r2 := split_levels B st.2.1 plate_x plate_y plate_z
        (some (bn ++ "_sec2")) lev r1.2
      (r1.1 ++ r2.1, r2.2)

/-- `split_object_for_plate(obj, plate_x, plate_y, plate_z, base_name,
_depth=0)` with the source's signature.  A call at recursion depth
`_depth` has `5 - _depth` split levels left before the `_depth > 4`
guard fires (the guard is exactly `5 - _depth = 0`, and each recursive
call increments `_depth`, decrementing the remaining levels), so the
worker recurses structurally on that count. -/
def split_object_for_plate (B : Backend) (obj : Mesh) (plate_x plate_y plate_z : ℚ)
    (base_name : Option String) (_depth : Nat) (s : Scene) :
    List (String × Mesh) × Scene :=
  split_levels B obj plate_x plate_y plate_z base_name (5 - _depth) s

/-! ### base.py: SegmentSets, the plate-split merge, mirroring, export -/

/-- Python dict assignment `d[k] = v` on an insertion-ordered
association list: overwrite in place if the key exists, else append. -/
def dict_insert (d : List (String × Mesh)) (k : String) (v : Mesh) :
    List (String × Mesh) :=
  if d.any (fun p => p.1 = k) then
    d.map (fun p => if p.1 = k then (k, v) else p)
  else d ++ [(k, v)]

/-- `ArmorPieceGenerator.split_for_build_plate(segments, ...)`: run the
splitter on every segment (with the segment's name as base name, depth
0) and merge all leaf lists into one insertion-ordered dict. -/
def split_for_build_plate (B : Backend) (segments : List (String × Mesh))
    (plate_x plate_y plate_z : ℚ) (s : Scene) : List (String × Mesh) × Scene :=
  segments.foldl (fun (acc : List (String × Mesh) × Scene) seg =>
    let parts := split_object_for_plate B seg.2 plate_x plate_y plate_z (some seg.1) 0 acc.2
    (parts.1.foldl (fun r p => dict_insert r p.1 p.2) acc.1, parts.2))
    ([], s)

/-- Comparison form of `split_for_build_plate` for the no-collision
claim: the same merge by plain list concatenation, which never
overwrites and keeps every splitter leaf. -/
def split_for_build_plate_concat (B : Backend) (segments : List (String × Mesh))
    (plate_x plate_y plate_z : ℚ) (s : Scene) : List (String × Mesh) × Scene :=
  segments.foldl (fun (acc : List (String × Mesh) × Scene) seg =>
    let parts := split_object_for_plate B seg.2 plate_x plate_y plate_z (some seg.1) 0 acc.2
    (acc.1 ++ parts.1, parts.2))
    ([], s)

/-- `SymmetricArmorPieceGenerator._mirror_segments(segments)`: rename
`_left` to `_right` and X-mirror each segment, in order. -/
def mirror_segments (segments : List (String × Mesh)) (s : Scene) :
    List (String × Mesh) × Scene :=
  segments.foldl (fun (acc : List (String × Mesh) × Scene) seg =>
    let right_name := seg.1.replace "_left" "_right"
    let mres := mirror_object seg.2 "X" (some right_name) acc.2
    (acc.1 ++ [(right_name, mres.1)], mres.2)) ([], s)

/-- The per-side tail of `export_pair_segmented`: optional plate split,
then one STL export per segment into the side's directory. -/
def export_sides (B : Backend) (base_name output_dir : String)
    (plate_x plate_y plate_z : ℚ) (auto_split : Bool)
    (left_segments right_segments : List (String × Mesh)) (s : Scene) :
    List String × Scene :=
  ([("left", left_segments), ("right", right_segments)]).foldl
    (fun (acc : List String × Scene) side =>
      let sres := if auto_split then
          split_for_build_plate B side.2 plate_x plate_y plate_z acc.2
        else (side.2, acc.2)
      let seg_dir := output_dir ++ "/" ++ base_name ++ "_" ++ side.1
      sres.1.foldl (fun (acc2 : List String × Scene) seg =>
        let fp := seg_dir ++ "/" ++ seg.1 ++ ".stl"
        (acc2.1 ++ [fp], acc2.2.emit (.exportStl seg.2.id fp))) (acc.1, sres.2))
    ([], s)

/-- `SymmetricArmorPieceGenerator.export_pair_segmented(...)`: generate
the left segment set once (`gen` stands for the piece's overridden
`generate_segments_base`, connector geometry included), mirror it
wholesale to the right, then split/export both sides. -/
def export_pair_segmented (B : Backend) (gen : Scene → List (String × Mesh) × Scene)
    (base_name output_dir : String) (plate_x plate_y plate_z : ℚ) (auto_split : Bool)
    (s : Scene) : List String × Scene :=
  let lres := gen s
  let left_segments := lres.1
  let rres := mirror_segments left_segments lres.2
  let right_segments := rres.1
  export_sides B base_name output_dir plate_x plate_y plate_z auto_split
    left_segments right_segments rres.2

/-! ### gauntlets.py: segment names of `generate_segments_base` -/

/-- The finger name table of `GauntletGenerator.generate_segments_base`. -/
def finger_names : List String := ["index", "middle", "ring", "pinky"]

/-- The segment names assigned by
`GauntletGenerator.generate_segments_base`, in dict insertion order:
hand shell, wrist cuff, knuckle plate, 4 fingers x 3 segments
(`{base}_{finger}{seg_idx+1}_left`), thumb base and thumb tip.  The
names are independent of the generated geometry. -/
def gauntlet_segment_names (base_name : String) : List String :=
  [base_name ++ "_hand_left", base_name ++ "_wrist_left", base_name ++ "_knuckle_left"]
  ++ (finger_names.flatMap (fun fn =>
      ([0, 1, 2].map (fun seg_idx => base_name ++ "_" ++ fn ++ toString (seg_idx + 1) ++ "_left"))))
  ++ [base_name ++ "_thumb_base_left", base_name ++ "_thumb_tip_left"]

/-! ### Trace observations -/

/-- The `(location, direction)` arguments of the pin-hole calls in a
trace, in order. -/
def hole_call_args : List Event → List (Vec3 × Vec3)
  | [] => []
  | Event.pinHoleCall _ l d _ _ :: t => (l, d) :: hole_call_args t
  | _ :: t => hole_call_args t

/-- The `(location, direction)` arguments of the pin-post calls in a
trace, in order. -/
def post_call_args : List Event → List (Vec3 × Vec3)
  | [] => []
  | Event.pinPostCall _ l d _ _ _ :: t => (l, d) :: post_call_args t
  | _ :: t => post_call_args t

/-- A trace reads the dimensions of handle `i` strictly after removing
it: the scene-corruption observation of the splitter's pin-offset
computation. -/
def read_after_remove (i : Nat) (t : List Event) : Prop :=
  ∃ t₁ t₂, t = t₁ ++ Event.removeObj i :: t₂ ∧ Event.readDims i ∈ t₂

/-- The pin offset of the source's lines 527-531 for one non-split axis:
on the cut plane, off-center along `ax` by 15% of that axis's extent. -/
def pin_offset (obj : Mesh) (split_axis ax : Nat) : Vec3 :=
  (Vec3.zero.set split_axis (cut_midpoint obj split_axis)).set ax
    ((obj.bbox_min.get ax + obj.bbox_max.get ax) / 2 + obj.dimensions.get ax * 0.15)

/-! ### Derived notions and characterization lemmas -/

/-- Pure value of `get_object_dimensions_mm`: bound-box extents in mm. -/
def Mesh.dims_mm (m : Mesh) : Vec3 :=
  ⟨m.dimensions.x * 1000, m.dimensions.y * 1000, m.dimensions.z * 1000⟩

/-- A mesh fits the build plate: every bounding-box extent in mm is at
most the corresponding plate bound. -/
def fits_plate (m : Mesh) (plate_x plate_y plate_z : ℚ) : Prop :=
  m.dims_mm.x ≤ plate_x ∧ m.dims_mm.y ≤ plate_y ∧ m.dims_mm.z ≤ plate_z

instance (m : Mesh) (px py pz : ℚ) : Decidable (fits_plate m px py pz) := by
  unfold fits_plate; infer_instance

/-- Spec-side formulation of the tie-break sentence: the split axis is
the earliest of X, Y, Z among those with maximal oversize. -/
def spec_split_axis (ox oy oz : ℚ) : Nat :=
  if oy ≤ ox ∧ oz ≤ ox then 0 else if oz ≤ oy then 1 else 2

/-- Geometry effect of the shared pin-orientation branch on the pin
cylinder. -/
def orient_geom (direction : Vec3) (g : Geom) : Geom :=
  if direction = ⟨1, 0, 0⟩ then rot_geom ⟨0, 90, 0⟩ g
  else if direction = ⟨0, 1, 0⟩ then rot_geom ⟨90, 0, 0⟩ g
  else g

/-- Geometry of a cut half: backend difference of the original geometry
and the cube cutter below (`upper = false`, the `_sec1` cutter) or above
(`upper = true`, the `_sec2` cutter) the midpoint. -/
def half_cut_geom (B : Backend) (obj : Mesh) (ax : Nat) (upper : Bool) : Geom :=
  let max_dim := obj.dimensions.maxComp * 2
  let mid := cut_midpoint obj ax
  let c := if upper then mid + max_dim / 2 else mid - max_dim / 2
  B.diffGeom obj.geom (cube_geom max_dim (Vec3.zero.set ax c))

/-- The non-split axes, `[a for a in range(3) if a != split_axis]`. -/
def other_axes_of (split_axis : Nat) : List Nat :=
  [0, 1, 2].filter (fun a => a ≠ split_axis)

/-- The exact event sequence of `cut_halves` on a scene with next free
handle id `n`. -/
def cut_trace (obj : Mesh) (bn : String) (ax : Nat) (n : Nat) : List Event :=
  [Event.readBBox obj.id, Event.readDims obj.id,
   Event.duplicateObj obj.id n (bn ++ "_sec1"),
   Event.createCube (n + 1) (obj.dimensions.maxComp * 2)
     (Vec3.zero.set ax (cut_midpoint obj ax - obj.dimensions.maxComp * 2 / 2)),
   Event.booleanDiff n (n + 1), Event.removeObj (n + 1),
   Event.duplicateObj obj.id (n + 2) (bn ++ "_sec2"),
   Event.createCube (n + 3) (obj.dimensions.maxComp * 2)
     (Vec3.zero.set ax (cut_midpoint obj ax + obj.dimensions.maxComp * 2 / 2)),
   Event.booleanDiff (n + 2) (n + 3), Event.removeObj (n + 3),
   Event.removeObj obj.id]

/-- One list is an initial segment of another. -/
def leadsTo {α : Type _} : List α → List α → Prop
  | [], _ => True
  | _ :: _, [] => False
  | a :: u, b :: v => a = b ∧ leadsTo u v

def leadsToDec {α : Type _} [DecidableEq α] : (u v : List α) → Decidable (leadsTo u v)
  | [], _ => isTrue trivial
  | _ :: _, [] => isFalse id
  | _ :: u, _ :: v => @instDecidableAnd _ _ _ (leadsToDec u v)

instance {α : Type _} [DecidableEq α] (u v : List α) : Decidable (leadsTo u v) :=
  leadsToDec u v

/-- Neither of two split-lineage paths is an initial segment of the
other: the positions of two distinct leaves of a binary split tree. -/
def secIncomp (p q : List Bool) : Prop := ¬ leadsTo p q ∧ ¬ leadsTo q p

/-- The name suffix a split lineage contributes: `_sec1` for the first
half, `_sec2` for the second, per level. -/
def sec_str (b : Bool) : List Char := if b then "_sec1".data else "_sec2".data

def sec_suffix (p : List Bool) : List Char := (p.map sec_str).flatten

/-- Base names that can never collide through `_sec` suffixing: none is
an initial segment of another (character-wise). -/
def names_separated (l : List String) : Prop :=
  l.Pairwise (fun a b => ¬ leadsTo a.data b.data ∧ ¬ leadsTo b.data a.data)

instance (l : List String) : Decidable (names_separated l) := by
  unfold names_separated; infer_instance

/-- Geometry accumulated on the hole-bearing half by a run of pin
insertions. -/
def holes_fold (B : Backend) (dir : Vec3) (offs : List Vec3) (g : Geom) : Geom :=
  offs.foldl (fun g l =>
    B.diffGeom g (orient_geom dir (cylinder_geom (pin_hole_radius 0.002) (0.003 * 2) l))) g

/-- Geometry accumulated on the post-bearing half by a run of pin
insertions. -/
def posts_fold (B : Backend) (dir : Vec3) (offs : List Vec3) (g : Geom) : Geom :=
  offs.foldl (fun g l =>
    B.unionGeom g (orient_geom dir (cylinder_geom (pin_post_radius 0.002 0.0001) 0.003 l))) g

/-! ### Concrete fixtures for witnesses -/

/-- A degenerate CSG kernel for concrete runs: every boolean difference
collapses to a point at the origin, unions keep the left operand. -/
def demoBackend : Backend :=
  ⟨fun _ _ => ⟨Vec3.zero, Vec3.zero, Vec3.zero, ⟨0, 0, 1⟩⟩, fun g _ => g⟩

/-- A 300mm x 200mm x 100mm box at the origin (oversize on X for a
256mm plate). -/
def demoMesh : Mesh :=
  ⟨0, "base", ⟨⟨-0.15, -0.1, -0.05⟩, ⟨0.15, 0.1, 0.05⟩, Vec3.zero, ⟨0, 0, 1⟩⟩⟩

/-- A 250mm cube at the origin (fits a 256mm plate on every axis). -/
def demoFitMesh : Mesh :=
  ⟨0, "base", ⟨⟨-0.125, -0.125, -0.125⟩, ⟨0.125, 0.125, 0.125⟩, Vec3.zero, ⟨0, 0, 1⟩⟩⟩

def demoScene : Scene := ⟨1, []⟩


lemma get_object_dimensions_mm_eq (m : Mesh) (s : Scene) :
    get_object_dimensions_mm m s = (m.dims_mm, s.emit (.readDims m.id)) := rfl

lemma sort3_head (ox oy oz : ℚ) :
    (sortDescStable [(ox, 0), (oy, 1), (oz, 2)]).headI
      = (qmax ox (qmax oy oz), spec_split_axis ox oy oz) := by
  have hrw : sortDescStable [(ox, 0), (oy, 1), (oz, 2)]
      = insertDescBy (ox, 0) (insertDescBy (oy, 1) [(oz, 2)]) := rfl
  by_cases c1 : oz ≤ oy
  · have hinner : insertDescBy (oy, 1) [(oz, 2)] = [(oy, 1), (oz, 2)] := by
      simp [insertDescBy, c1]
    by_cases c2 : oy ≤ ox
    · have : sortDescStable [(ox, 0), (oy, 1), (oz, 2)] = [(ox, 0), (oy, 1), (oz, 2)] := by
        rw [hrw, hinner]; simp [insertDescBy, c2]
      rw [this]
      simp only [List.headI]
      unfold qmax spec_split_axis
      split_ifs <;> simp_all <;> linarith
    · have : (sortDescStable [(ox, 0), (oy, 1), (oz, 2)]).headI = (oy, 1) := by
        rw [hrw, hinner]
        unfold insertDescBy
        rw [if_neg (by simpa using c2)]
        simp [List.headI]
      rw [this]
      unfold qmax spec_split_axis
      split_ifs <;> simp_all <;> linarith
  · have hinner : insertDescBy (oy, 1) [(oz, 2)] = [(oz, 2), (oy, 1)] := by
      unfold insertDescBy
      rw [if_neg (by simpa using c1)]
      simp [insertDescBy]
    by_cases c3 : oz ≤ ox
    · have : sortDescStable [(ox, 0), (oy, 1), (oz, 2)] = [(ox, 0), (oz, 2), (oy, 1)] := by
        rw [hrw, hinner]; simp [insertDescBy, c3]
      rw [this]
      simp only [List.headI]
      unfold qmax spec_split_axis
      split_ifs <;> simp_all <;> linarith
    · have : (sortDescStable [(ox, 0), (oy, 1), (oz, 2)]).headI = (oz, 2) := by
        rw [hrw, hinner]
        unfold insertDescBy
        rw [if_neg (by simpa using c3)]
        simp [List.headI]
      rw [this]
      unfold qmax spec_split_axis
      split_ifs <;> simp_all <;> linarith

/-- The sorted-head axis selection equals: maximal oversize, earliest
axis among ties. -/
lemma choose_split_eq (dm pl : Vec3) :
    choose_split dm pl =
      (qmax (dm.x - pl.x) (qmax (dm.y - pl.y) (dm.z - pl.z)),
       spec_split_axis (dm.x - pl.x) (dm.y - pl.y) (dm.z - pl.z)) := by
  unfold choose_split
  exact sort3_head _ _ _

lemma qmax3_le_iff (a b c q : ℚ) : qmax a (qmax b c) ≤ q ↔ a ≤ q ∧ b ≤ q ∧ c ≤ q := by
  unfold qmax; split_ifs <;> constructor <;> intro h <;>
    first
      | exact ⟨by linarith, by linarith, by linarith⟩
      | (obtain ⟨h1, h2, h3⟩ := h; linarith)

/-- The source's fit test `max_over <= 0` is exactly `fits_plate`. -/
lemma choose_split_fit_iff (m : Mesh) (px py pz : ℚ) :
    (choose_split m.dims_mm ⟨px, py, pz⟩).1 ≤ 0 ↔ fits_plate m px py pz := by
  rw [choose_split_eq]
  simpa [fits_plate] using qmax3_le_iff (m.dims_mm.x - px) (m.dims_mm.y - py)
    (m.dims_mm.z - pz) 0

lemma spec_split_axis_mem (ox oy oz : ℚ) :
    spec_split_axis ox oy oz = 0 ∨ spec_split_axis ox oy oz = 1 ∨
      spec_split_axis ox oy oz = 2 := by
  unfold spec_split_axis; split_ifs <;> simp

/-- Among the axes of maximal oversize, `spec_split_axis` is the one of
least index: the chosen axis attains the maximum, and every earlier axis
is strictly smaller. -/
lemma spec_split_axis_least (ox oy oz : ℚ) :
    [ox, oy, oz].getD (spec_split_axis ox oy oz) 0 = qmax ox (qmax oy oz) ∧
      (∀ i < spec_split_axis ox oy oz, [ox, oy, oz].getD i 0 < qmax ox (qmax oy oz)) := by
  unfold spec_split_axis
  by_cases c1 : oy ≤ ox ∧ oz ≤ ox
  · obtain ⟨ca, cb⟩ := c1
    rw [if_pos ⟨ca, cb⟩]
    refine ⟨?_, by omega⟩
    simp only [List.getD, List.get?, Option.getD]
    unfold qmax; split_ifs <;> linarith
  · have hx : ox < oy ∨ ox < oz := by
      rcases not_and_or.mp c1 with h | h
      · exact Or.inl (lt_of_not_le h)
      · exact Or.inr (lt_of_not_le h)
    rw [if_neg c1]
    by_cases c2 : oz ≤ oy
    · have hxy : ox < oy := by rcases hx with h | h; exact h; linarith
      rw [if_pos c2]
      refine ⟨?_, ?_⟩
      · simp only [List.getD, List.get?, Option.getD]
        unfold qmax; split_ifs <;> linarith
      · intro i hi
        interval_cases i
        simp only [List.getD, List.get?, Option.getD]
        unfold qmax; split_ifs <;> linarith
    · have hyz : oy < oz := lt_of_not_le c2
      have hxz : ox < oz := by rcases hx with h | h; linarith; exact h
      rw [if_neg c2]
      refine ⟨?_, ?_⟩
      · simp only [List.getD, List.get?, Option.getD]
        unfold qmax; split_ifs <;> linarith
      · intro i hi
        interval_cases i <;>
          (simp only [List.getD, List.get?, Option.getD]; unfold qmax;
            split_ifs <;> linarith)

/-! ### Unfolding equations for `split_levels` -/

lemma split_levels_zero (B : Backend) (obj : Mesh) (px py pz : ℚ)
    (bn : Option String) (s : Scene) :
    split_levels B obj px py pz bn 0 s = ([(bn.getD obj.name, obj)], s) := rfl

lemma split_levels_fit (B : Backend) (obj : Mesh) (px py pz : ℚ)
    (bn : Option String) (lev : Nat) (s : Scene) (h : fits_plate obj px py pz) :
    split_levels B obj px py pz bn (lev + 1) s =
      ([(bn.getD obj.name, obj)], s.emit (.readDims obj.id)) := by
  rw [← choose_split_fit_iff] at h
  simp only [split_levels, get_object_dimensions_mm_eq, if_pos h]

lemma split_levels_split (B : Backend) (obj : Mesh) (px py pz : ℚ)
    (bn : Option String) (lev : Nat) (s : Scene) (h : ¬ fits_plate obj px py pz) :
    split_levels B obj px py pz bn (lev + 1) s =
      (let bn0 := bn.getD obj.name
       let st := split_step B obj bn0 (choose_split obj.dims_mm ⟨px, py, pz⟩).2
         (s.emit (.readDims obj.id))
       let r1 := split_levels B st.1 px py pz (some (bn0 ++ "_sec1")) lev st.2.2
       let r2 := split_levels B st.2.1 px py pz (some (bn0 ++ "_sec2")) lev r1.2
       (r1.1 ++ r2.1, r2.2)) := by
  rw [← choose_split_fit_iff] at h
  simp only [split_levels, get_object_dimensions_mm_eq, if_neg h]

/-! ### Trace extraction facts -/

lemma hole_call_args_append (t₁ t₂ : List Event) :
    hole_call_args (t₁ ++ t₂) = hole_call_args t₁ ++ hole_call_args t₂ := by
  induction t₁ with
  | nil => simp [hole_call_args]
  | cons e t ih => cases e <;> simp [hole_call_args, ih]

lemma post_call_args_append (t₁ t₂ : List Event) :
    post_call_args (t₁ ++ t₂) = post_call_args t₁ ++ post_call_args t₂ := by
  induction t₁ with
  | nil => simp [post_call_args]
  | cons e t ih => cases e <;> simp [post_call_args, ih]

/-! ### Stage lemmas for the splitter -/

lemma cut_halves_events (B : Backend) (obj : Mesh) (bn : String) (ax : Nat) (s : Scene) :
    (cut_halves B obj bn ax s).2.2.events = s.events ++ cut_trace obj bn ax s.nextId := by
  simp [cut_halves, cut_trace, duplicate_object, create_cube, boolean_difference,
    Scene.emit, Scene.fresh]

lemma cut_halves_fst (B : Backend) (obj : Mesh) (bn : String) (ax : Nat) (s : Scene) :
    (cut_halves B obj bn ax s).1 = ⟨s.nextId, bn ++ "_sec1", half_cut_geom B obj ax false⟩ := by
  simp [cut_halves, half_cut_geom, cube_geom, duplicate_object, create_cube,
    boolean_difference, Scene.emit, Scene.fresh]

lemma cut_halves_snd (B : Backend) (obj : Mesh) (bn : String) (ax : Nat) (s : Scene) :
    (cut_halves B obj bn ax s).2.1
      = ⟨s.nextId + 2, bn ++ "_sec2", half_cut_geom B obj ax true⟩ := by
  simp [cut_halves, half_cut_geom, cube_geom, duplicate_object, create_cube,
    boolean_difference, Scene.emit, Scene.fresh]

lemma cut_trace_hole_args (obj : Mesh) (bn : String) (ax : Nat) (n : Nat) :
    hole_call_args (cut_trace obj bn ax n) = [] := by
  simp [cut_trace, hole_call_args]

lemma cut_trace_post_args (obj : Mesh) (bn : String) (ax : Nat) (n : Nat) :
    post_call_args (cut_trace obj bn ax n) = [] := by
  simp [cut_trace, post_call_args]

lemma pin_offsets_stage_eq (obj : Mesh) (ax : Nat) (s : Scene) :
    pin_offsets_stage obj ax s
      = ((other_axes_of ax).map (pin_offset obj ax),
         { s with events := s.events ++ (other_axes_of ax).map (fun _ => Event.readDims obj.id) }) := by
  have key : ∀ (axs : List Nat) (acc : List Vec3) (s0 : Scene),
      axs.foldl (fun (acc : List Vec3 × Scene) ax2 =>
        let s := acc.2.emit (.readDims obj.id)
        let offset := (Vec3.zero.set ax (cut_midpoint obj ax)).set ax2
          ((obj.bbox_min.get ax2 + obj.bbox_max.get ax2) / 2 + obj.dimensions.get ax2 * 0.15)
        (acc.1 ++ [offset], s)) (acc, s0)
      = (acc ++ axs.map (pin_offset obj ax),
         { s0 with events := s0.events ++ axs.map (fun _ => Event.readDims obj.id) }) := by
    intro axs
    induction axs with
    | nil => intro acc s0; simp
    | cons a t ih =>
      intro acc s0
      simp only [List.foldl_cons, List.map_cons]
      rw [ih]
      simp [pin_offset, Scene.emit]
  unfold pin_offsets_stage other_axes_of
  rw [key]
  simp

lemma other_axes_ne_nil (ax : Nat) : other_axes_of ax ≠ [] := by
  intro hnil
  by_cases h : ax = 0
  · have h1 : (1 : Nat) ∈ other_axes_of ax := by
      subst h; simp [other_axes_of]
    rw [hnil] at h1
    simp at h1
  · have h0 : (0 : Nat) ∈ other_axes_of ax := by
      refine List.mem_filter.mpr ⟨by simp, ?_⟩
      simpa using fun hc => h hc.symm
    rw [hnil] at h0
    simp at h0

lemma pin_hole_events (B : Backend) (obj : Mesh) (l dir : Vec3) (dia dep : ℚ) (s : Scene) :
    ∃ t, (create_alignment_pin_hole B obj l dir dia dep s).2.events
        = s.events ++ Event.pinHoleCall obj.id l dir dia dep :: t
      ∧ hole_call_args t = [] ∧ post_call_args t = [] := by
  unfold create_alignment_pin_hole orient_pin_cylinder
  by_cases h1 : dir = (⟨1, 0, 0⟩ : Vec3)
  · simp [h1, create_cylinder, rotate_object, boolean_difference, Scene.emit, Scene.fresh,
      hole_call_args, post_call_args]
  · by_cases h2 : dir = (⟨0, 1, 0⟩ : Vec3)
    · simp [h1, h2, create_cylinder, rotate_object, boolean_difference, Scene.emit,
        Scene.fresh, hole_call_args, post_call_args]
    · simp [h1, h2, create_cylinder, boolean_difference, Scene.emit, Scene.fresh,
        hole_call_args, post_call_args]

lemma pin_post_events (B : Backend) (obj : Mesh) (l dir : Vec3) (dia hei cl : ℚ) (s : Scene) :
    ∃ t, (create_alignment_pin_post B obj l dir dia hei cl s).2.events
        = s.events ++ Event.pinPostCall obj.id l dir dia hei cl :: t
      ∧ hole_call_args t = [] ∧ post_call_args t = [] := by
  unfold create_alignment_pin_post orient_pin_cylinder
  by_cases h1 : dir = (⟨1, 0, 0⟩ : Vec3)
  · simp [h1, create_cylinder, rotate_object, boolean_union, Scene.emit, Scene.fresh,
      hole_call_args, post_call_args]
  · by_cases h2 : dir = (⟨0, 1, 0⟩ : Vec3)
    · simp [h1, h2, create_cylinder, rotate_object, boolean_union, Scene.emit,
        Scene.fresh, hole_call_args, post_call_args]
    · simp [h1, h2, create_cylinder, boolean_union, Scene.emit, Scene.fresh,
        hole_call_args, post_call_args]

lemma pin_hole_result (B : Backend) (obj : Mesh) (l dir : Vec3) (dia dep : ℚ) (s : Scene) :
    (create_alignment_pin_hole B obj l dir dia dep s).1
      = { obj with geom := B.diffGeom obj.geom (orient_geom dir (cylinder_geom (pin_hole_radius dia) (dep * 2) l)) } := by
  unfold create_alignment_pin_hole orient_pin_cylinder orient_geom
  by_cases h1 : dir = (⟨1, 0, 0⟩ : Vec3)
  · simp [h1, create_cylinder, rotate_object, boolean_difference, Scene.emit, Scene.fresh]
  · by_cases h2 : dir = (⟨0, 1, 0⟩ : Vec3)
    · simp [h1, h2, create_cylinder, rotate_object, boolean_difference, Scene.emit,
        Scene.fresh]
    · simp [h1, h2, create_cylinder, boolean_difference, Scene.emit, Scene.fresh]

lemma pin_post_result (B : Backend) (obj : Mesh) (l dir : Vec3) (dia hei cl : ℚ) (s : Scene) :
    (create_alignment_pin_post B obj l dir dia hei cl s).1
      = { obj with geom := B.unionGeom obj.geom (orient_geom dir (cylinder_geom (pin_post_radius dia cl) hei l)) } := by
  unfold create_alignment_pin_post orient_pin_cylinder orient_geom
  by_cases h1 : dir = (⟨1, 0, 0⟩ : Vec3)
  · simp [h1, create_cylinder, rotate_object, boolean_union, Scene.emit, Scene.fresh]
  · by_cases h2 : dir = (⟨0, 1, 0⟩ : Vec3)
    · simp [h1, h2, create_cylinder, rotate_object, boolean_union, Scene.emit, Scene.fresh]
    · simp [h1, h2, create_cylinder, boolean_union, Scene.emit, Scene.fresh]

lemma add_pin_pairs_spec (B : Backend) (offs : List Vec3) :
    ∀ (h1 h2 : Mesh) (dir : Vec3) (s : Scene),
    (add_pin_pairs B h1 h2 offs dir s).1 = { h1 with geom := holes_fold B dir offs h1.geom }
    ∧ (add_pin_pairs B h1 h2 offs dir s).2.1
        = { h2 with geom := posts_fold B dir offs h2.geom }
    ∧ ∃ t, (add_pin_pairs B h1 h2 offs dir s).2.2.events = s.events ++ t
      ∧ hole_call_args t = offs.map (fun l => (l, dir))
      ∧ post_call_args t = offs.map (fun l => (l, dir)) := by
  induction offs with
  | nil =>
    intro h1 h2 dir s
    refine ⟨rfl, rfl, [], by simp [add_pin_pairs], by simp [hole_call_args],
      by simp [post_call_args]⟩
  | cons l offs ih =>
    intro h1 h2 dir s
    have hstep : add_pin_pairs B h1 h2 (l :: offs) dir s
        = add_pin_pairs B (create_alignment_pin_hole B h1 l dir 0.002 0.003 s).1
            (create_alignment_pin_post B h2 l dir 0.002 0.003 0.0001
              (create_alignment_pin_hole B h1 l dir 0.002 0.003 s).2).1
            offs dir
            (create_alignment_pin_post B h2 l dir 0.002 0.003 0.0001
              (create_alignment_pin_hole B h1 l dir 0.002 0.003 s).2).2 := by
      simp [add_pin_pairs]
    obtain ⟨ih1, ih2, t, iht, ihh, ihp⟩ := ih (create_alignment_pin_hole B h1 l dir 0.002 0.003 s).1
      (create_alignment_pin_post B h2 l dir 0.002 0.003 0.0001
        (create_alignment_pin_hole B h1 l dir 0.002 0.003 s).2).1 dir
      (create_alignment_pin_post B h2 l dir 0.002 0.003 0.0001
        (create_alignment_pin_hole B h1 l dir 0.002 0.003 s).2).2
    obtain ⟨th, hth, hthh, hthp⟩ := pin_hole_events B h1 l dir 0.002 0.003 s
    obtain ⟨tp, htp, htph, htpp⟩ := pin_post_events B h2 l dir 0.002 0.003 0.0001
      (create_alignment_pin_hole B h1 l dir 0.002 0.003 s).2
    have hpostid : (create_alignment_pin_hole B h1 l dir 0.002 0.003 s).1.id = h1.id ∧
        (create_alignment_pin_hole B h1 l dir 0.002 0.003 s).1.name = h1.name := by
      rw [pin_hole_result]; exact ⟨rfl, rfl⟩
    have hpostid2 : (create_alignment_pin_post B h2 l dir 0.002 0.003 0.0001
          (create_alignment_pin_hole B h1 l dir 0.002 0.003 s).2).1.id = h2.id ∧
        (create_alignment_pin_post B h2 l dir 0.002 0.003 0.0001
          (create_alignment_pin_hole B h1 l dir 0.002 0.003 s).2).1.name = h2.name := by
      rw [pin_post_result]; exact ⟨rfl, rfl⟩
    refine ⟨?_, ?_, ?_⟩
    · rw [hstep, ih1, pin_hole_result]
      simp [holes_fold]
    · rw [hstep, ih2, pin_post_result]
      simp [posts_fold]
    · refine ⟨Event.pinHoleCall h1.id l dir 0.002 0.003
          :: (th ++ Event.pinPostCall h2.id l dir 0.002 0.003 0.0001 :: (tp ++ t)),
        ?_, ?_, ?_⟩
      · rw [hstep, iht, htp, hth]
        simp
      · simp [hole_call_args, hole_call_args_append, hthh, htph, ihh]
      · simp [post_call_args, post_call_args_append, hthp, htpp, ihp]

lemma split_step_fst (B : Backend) (obj : Mesh) (bn : String) (ax : Nat) (s : Scene) :
    (split_step B obj bn ax s).1
      = ⟨s.nextId, bn ++ "_sec1",
         holes_fold B (Vec3.zero.set ax 1) ((other_axes_of ax).map (pin_offset obj ax))
           (half_cut_geom B obj ax false)⟩ := by
  unfold split_step
  simp only [pin_offsets_stage_eq]
  rw [(add_pin_pairs_spec B _ _ _ _ _).1, cut_halves_fst]

lemma split_step_snd (B : Backend) (obj : Mesh) (bn : String) (ax : Nat) (s : Scene) :
    (split_step B obj bn ax s).2.1
      = ⟨s.nextId + 2, bn ++ "_sec2",
         posts_fold B (Vec3.zero.set ax 1) ((other_axes_of ax).map (pin_offset obj ax))
           (half_cut_geom B obj ax true)⟩ := by
  unfold split_step
  simp only [pin_offsets_stage_eq]
  rw [(add_pin_pairs_spec B _ _ _ _ _).2.1, cut_halves_snd]

lemma split_step_events (B : Backend) (obj : Mesh) (bn : String) (ax : Nat) (s : Scene) :
    ∃ t, (split_step B obj bn ax s).2.2.events
        = s.events ++ (cut_trace obj bn ax s.nextId
            ++ ((other_axes_of ax).map (fun _ => Event.readDims obj.id) ++ t))
      ∧ hole_call_args t
          = ((other_axes_of ax).map (pin_offset obj ax)).map (fun l => (l, Vec3.zero.set ax 1))
      ∧ post_call_args t
          = ((other_axes_of ax).map (pin_offset obj ax)).map (fun l => (l, Vec3.zero.set ax 1)) := by
  unfold split_step
  simp only [pin_offsets_stage_eq]
  obtain ⟨t, ht, hth, htp⟩ := (add_pin_pairs_spec B ((other_axes_of ax).map (pin_offset obj ax))
    (cut_halves B obj bn ax s).1 (cut_halves B obj bn ax s).2.1 (Vec3.zero.set ax 1)
    { (cut_halves B obj bn ax s).2.2 with events := (cut_halves B obj bn ax s).2.2.events ++ (other_axes_of ax).map (fun _ => Event.readDims obj.id) }).2.2
  refine ⟨t, ?_, hth, htp⟩
  rw [ht]
  simp [cut_halves_events]

/-! ### Lineage paths and name algebra -/

lemma leadsTo_refl {α : Type _} : ∀ (l : List α), leadsTo l l
  | [] => trivial
  | _ :: t => ⟨rfl, leadsTo_refl t⟩

lemma leadsTo_cons_iff {α : Type _} (a b : α) (u v : List α) :
    leadsTo (a :: u) (b :: v) ↔ a = b ∧ leadsTo u v := Iff.rfl

lemma leads_total {α : Type _} :
    ∀ (u v w x : List α), u ++ w = v ++ x → leadsTo u v ∨ leadsTo v u := by
  intro u
  induction u with
  | nil => intro v w x _; exact Or.inl trivial
  | cons a u ih =>
    intro v w x h
    cases v with
    | nil => exact Or.inr trivial
    | cons b v =>
      simp only [List.cons_append, List.cons.injEq] at h
      rcases ih v w x h.2 with h1 | h1
      · exact Or.inl ⟨h.1, h1⟩
      · exact Or.inr ⟨h.1.symm, h1⟩

lemma ne_append_of_incomp {u v : List Char} (h : ¬ leadsTo u v ∧ ¬ leadsTo v u)
    (w x : List Char) : u ++ w ≠ v ++ x := by
  intro heq
  rcases leads_total u v w x heq with h1 | h1
  · exact h.1 h1
  · exact h.2 h1

lemma sec_suffix_nil : sec_suffix [] = [] := rfl

lemma sec_suffix_cons (b : Bool) (p : List Bool) :
    sec_suffix (b :: p) = sec_str b ++ sec_suffix p := by
  simp [sec_suffix]

lemma sec_str_length (b : Bool) : (sec_str b).length = 5 := by
  cases b <;> decide

lemma sec_str_inj {b c : Bool} (h : sec_str b = sec_str c) : b = c := by
  cases b <;> cases c <;> first | rfl | (exfalso; revert h; decide)

lemma sec_suffix_sep : ∀ (p q : List Bool) (u v : List Char),
    sec_suffix p ++ u = sec_suffix q ++ v → leadsTo p q ∨ leadsTo q p := by
  intro p
  induction p with
  | nil => intro q u v _; exact Or.inl trivial
  | cons b p ih =>
    intro q u v h
    cases q with
    | nil => exact Or.inr trivial
    | cons c q =>
      rw [sec_suffix_cons, sec_suffix_cons, List.append_assoc, List.append_assoc] at h
      obtain ⟨hbc, htail⟩ := List.append_inj h (by rw [sec_str_length, sec_str_length])
      have hb : b = c := sec_str_inj hbc
      subst hb
      rcases ih q _ _ htail with h1 | h1
      · exact Or.inl ⟨rfl, h1⟩
      · exact Or.inr ⟨rfl, h1⟩

lemma sec_suffix_ne_of_incomp {p q : List Bool} (h : secIncomp p q) :
    sec_suffix p ≠ sec_suffix q := by
  intro heq
  have : sec_suffix p ++ [] = sec_suffix q ++ [] := by simp [heq]
  rcases sec_suffix_sep p q [] [] this with h1 | h1
  · exact h.1 h1
  · exact h.2 h1

lemma name_ne_of_incomp (bnd : List Char) {p q : List Bool} (h : secIncomp p q) :
    bnd ++ sec_suffix p ≠ bnd ++ sec_suffix q := by
  intro heq
  exact sec_suffix_ne_of_incomp h (List.append_cancel_left heq)

/-! ### Forall₂ helpers -/

lemma forall₂_mem_left {α β : Type _} {R : α → β → Prop} :
    ∀ {l₁ : List α} {l₂ : List β}, List.Forall₂ R l₁ l₂ → ∀ a ∈ l₁, ∃ b ∈ l₂, R a b := by
  intro l₁ l₂ h
  induction h with
  | nil => intro a ha; simp at ha
  | cons hr _ ih =>
    intro a ha
    rcases List.mem_cons.mp ha with ha | ha
    · exact ⟨_, by simp, ha ▸ hr⟩
    · obtain ⟨b, hb, hrb⟩ := ih a ha
      exact ⟨b, by simp [hb], hrb⟩

lemma forall₂_append_custom {α β : Type _} {R : α → β → Prop}
    {l₁ u₁ : List α} {l₂ u₂ : List β} (h₁ : List.Forall₂ R l₁ l₂)
    (h₂ : List.Forall₂ R u₁ u₂) : List.Forall₂ R (l₁ ++ u₁) (l₂ ++ u₂) := by
  induction h₁ with
  | nil => simpa
  | cons hr _ ih => exact List.Forall₂.cons hr ih

/-- A pairwise relation transfers from the right list of a `Forall₂` to
the left list. -/
lemma pairwise_of_forall₂ {α β : Type _} {R : α → β → Prop} {S : β → β → Prop}
    {T : α → α → Prop} {l₁ : List α} {l₂ : List β} (h : List.Forall₂ R l₁ l₂)
    (hp : l₂.Pairwise S)
    (key : ∀ a b p q, R a p → R b q → S p q → T a b) : l₁.Pairwise T := by
  induction h with
  | nil => exact List.Pairwise.nil
  | cons hr hf ih =>
    rename_i a p l₁ l₂
    rcases List.pairwise_cons.mp hp with ⟨hhead, htail⟩
    refine List.pairwise_cons.mpr ⟨?_, ih htail⟩
    intro b hb
    obtain ⟨q, hq, hrq⟩ := forall₂_mem_left hf b hb
    exact key a b p q hr hrq (hhead q hq)

/-! ### Whole-splitter trace and shape lemmas -/

lemma hole_call_args_readDims (l : List Nat) (i : Nat) :
    hole_call_args (l.map (fun _ => Event.readDims i)) = [] := by
  induction l with
  | nil => rfl
  | cons a t ih => simpa only [List.map_cons, hole_call_args] using ih

lemma post_call_args_readDims (l : List Nat) (i : Nat) :
    post_call_args (l.map (fun _ => Event.readDims i)) = [] := by
  induction l with
  | nil => rfl
  | cons a t ih => simpa only [List.map_cons, post_call_args] using ih

lemma hole_call_args_one_readDims (i : Nat) : hole_call_args [Event.readDims i] = [] := rfl

lemma post_call_args_one_readDims (i : Nat) : post_call_args [Event.readDims i] = [] := rfl

lemma split_axis_mem (m : Mesh) (px py pz : ℚ) :
    (choose_split m.dims_mm ⟨px, py, pz⟩).2 = 0
    ∨ (choose_split m.dims_mm ⟨px, py, pz⟩).2 = 1
    ∨ (choose_split m.dims_mm ⟨px, py, pz⟩).2 = 2 := by
  rw [choose_split_eq]
  exact spec_split_axis_mem _ _ _

/-- Every pin-hole call and pin-post call the splitter makes carries the
same `(location, direction)` list, and every direction is the positive
unit vector of one of the three axes. -/
lemma split_levels_trace : ∀ (lev : Nat) (B : Backend) (obj : Mesh) (px py pz : ℚ)
    (bn : Option String) (s : Scene),
    ∃ t, (split_levels B obj px py pz bn lev s).2.events = s.events ++ t
      ∧ hole_call_args t = post_call_args t
      ∧ ∀ pr ∈ hole_call_args t,
          ∃ ax, (ax = 0 ∨ ax = 1 ∨ ax = 2) ∧ pr.2 = Vec3.zero.set ax 1 := by
  intro lev
  induction lev with
  | zero =>
    intro B obj px py pz bn s
    exact ⟨[], by simp [split_levels_zero], by simp [hole_call_args, post_call_args],
      by simp [hole_call_args]⟩
  | succ lev ih =>
    intro B obj px py pz bn s
    by_cases hfit : fits_plate obj px py pz
    · refine ⟨[Event.readDims obj.id], ?_, ?_, ?_⟩
      · rw [split_levels_fit B obj px py pz bn lev s hfit]; simp [Scene.emit]
      · simp [hole_call_args, post_call_args]
      · simp [hole_call_args]
    · rw [split_levels_split B obj px py pz bn lev s hfit]
      dsimp only
      obtain ⟨t0, ht0, ht0h, ht0p⟩ := split_step_events B obj (bn.getD obj.name)
        (choose_split obj.dims_mm ⟨px, py, pz⟩).2 (s.emit (.readDims obj.id))
      obtain ⟨t1, ht1, ht1h, ht1p⟩ := ih B
        (split_step B obj (bn.getD obj.name) (choose_split obj.dims_mm ⟨px, py, pz⟩).2
          (s.emit (.readDims obj.id))).1 px py pz (some (bn.getD obj.name ++ "_sec1"))
        (split_step B obj (bn.getD obj.name) (choose_split obj.dims_mm ⟨px, py, pz⟩).2
          (s.emit (.readDims obj.id))).2.2
      obtain ⟨t2, ht2, ht2h, ht2p⟩ := ih B
        (split_step B obj (bn.getD obj.name) (choose_split obj.dims_mm ⟨px, py, pz⟩).2
          (s.emit (.readDims obj.id))).2.1 px py pz (some (bn.getD obj.name ++ "_sec2"))
        (split_levels B
          (split_step B obj (bn.getD obj.name) (choose_split obj.dims_mm ⟨px, py, pz⟩).2
            (s.emit (.readDims obj.id))).1 px py pz (some (bn.getD obj.name ++ "_sec1")) lev
          (split_step B obj (bn.getD obj.name) (choose_split obj.dims_mm ⟨px, py, pz⟩).2
            (s.emit (.readDims obj.id))).2.2).2
      refine ⟨[Event.readDims obj.id]
          ++ cut_trace obj (bn.getD obj.name) (choose_split obj.dims_mm ⟨px, py, pz⟩).2
              (s.emit (.readDims obj.id)).nextId
          ++ (other_axes_of (choose_split obj.dims_mm ⟨px, py, pz⟩).2).map
              (fun _ => Event.readDims obj.id)
          ++ t0 ++ t1 ++ t2, ?_, ?_, ?_⟩
      · rw [ht2, ht1, ht0]
        simp [Scene.emit]
      · simp only [hole_call_args_append, post_call_args_append, cut_trace_hole_args,
          cut_trace_post_args, hole_call_args_readDims, post_call_args_readDims,
          hole_call_args_one_readDims, post_call_args_one_readDims,
          ht0h, ht0p, ht1h, ht2h, ht1p, ht2p]
      · intro pr hpr
        simp only [hole_call_args_append, cut_trace_hole_args, hole_call_args_readDims,
          hole_call_args_one_readDims, ht0h, List.nil_append, List.append_nil,
          List.mem_append, List.mem_map] at hpr
        rcases hpr with ((⟨l0, _, hl0⟩ | hpr) | hpr)
        · refine ⟨(choose_split obj.dims_mm ⟨px, py, pz⟩).2, split_axis_mem obj px py pz, ?_⟩
          rw [← hl0]
        · exact ht1p pr hpr
        · exact ht2p pr hpr

/-- The splitter emits at most `2 ^ levels` leaves. -/
lemma split_levels_length : ∀ (lev : Nat) (B : Backend) (obj : Mesh) (px py pz : ℚ)
    (bn : Option String) (s : Scene),
    (split_levels B obj px py pz bn lev s).1.length ≤ 2 ^ lev := by
  intro lev
  induction lev with
  | zero => intro B obj px py pz bn s; simp [split_levels_zero]
  | succ lev ih =>
    intro B obj px py pz bn s
    by_cases hfit : fits_plate obj px py pz
    · rw [split_levels_fit B obj px py pz bn lev s hfit]
      simpa using Nat.one_le_two_pow
    · rw [split_levels_split B obj px py pz bn lev s hfit]
      dsimp only
      rw [List.length_append, pow_succ, Nat.mul_comm, Nat.two_mul]
      exact Nat.add_le_add (ih _ _ _ _ _ _ _) (ih _ _ _ _ _ _ _)

/-- Master shape lemma: every leaf's name is the base name extended by
its split-lineage suffix; lineage depth is bounded by the remaining
levels; a leaf either fits the plate or used up all levels (the guard);
and distinct leaves have incomparable lineages. -/
lemma split_levels_names : ∀ (lev : Nat) (B : Backend) (obj : Mesh) (px py pz : ℚ)
    (bn : Option String) (s : Scene),
    ∃ ps : List (List Bool),
      List.Forall₂ (fun (leaf : String × Mesh) (p : List Bool) =>
          leaf.1.data = (bn.getD obj.name).data ++ sec_suffix p
          ∧ p.length ≤ lev
          ∧ (fits_plate leaf.2 px py pz ∨ p.length = lev))
        (split_levels B obj px py pz bn lev s).1 ps
      ∧ ps.Pairwise secIncomp := by
  intro lev
  induction lev with
  | zero =>
    intro B obj px py pz bn s
    refine ⟨[[]], ?_, by simp [List.pairwise_cons]⟩
    rw [split_levels_zero]
    refine List.forall₂_cons.mpr ⟨⟨by simp [sec_suffix_nil], by simp, Or.inr rfl⟩, List.Forall₂.nil⟩
  | succ lev ih =>
    intro B obj px py pz bn s
    by_cases hfit : fits_plate obj px py pz
    · refine ⟨[[]], ?_, by simp [List.pairwise_cons]⟩
      rw [split_levels_fit B obj px py pz bn lev s hfit]
      exact List.forall₂_cons.mpr ⟨⟨by simp [sec_suffix_nil], by simp, Or.inl hfit⟩,
        List.Forall₂.nil⟩
    · rw [split_levels_split B obj px py pz bn lev s hfit]
      dsimp only
      obtain ⟨ps1, hf1, hp1⟩ := ih B
        (split_step B obj (bn.getD obj.name) (choose_split obj.dims_mm ⟨px, py, pz⟩).2
          (s.emit (.readDims obj.id))).1 px py pz (some (bn.getD obj.name ++ "_sec1"))
        (split_step B obj (bn.getD obj.name) (choose_split obj.dims_mm ⟨px, py, pz⟩).2
          (s.emit (.readDims obj.id))).2.2
      obtain ⟨ps2, hf2, hp2⟩ := ih B
        (split_step B obj (bn.getD obj.name) (choose_split obj.dims_mm ⟨px, py, pz⟩).2
          (s.emit (.readDims obj.id))).2.1 px py pz (some (bn.getD obj.name ++ "_sec2"))
        (split_levels B
          (split_step B obj (bn.getD obj.name) (choose_split obj.dims_mm ⟨px, py, pz⟩).2
            (s.emit (.readDims obj.id))).1 px py pz (some (bn.getD obj.name ++ "_sec1")) lev
          (split_step B obj (bn.getD obj.name) (choose_split obj.dims_mm ⟨px, py, pz⟩).2
            (s.emit (.readDims obj.id))).2.2).2
      refine ⟨ps1.map (true :: ·) ++ ps2.map (false :: ·), ?_, ?_⟩
      · apply forall₂_append_custom
        · rw [List.forall₂_map_right_iff]
          refine hf1.imp ?_
          intro leaf p hlp
          obtain ⟨hname, hlen, hfits⟩ := hlp
          refine ⟨?_, by simpa using Nat.succ_le_succ hlen, ?_⟩
          · rw [hname]
            simp only [Option.getD_some, String.data_append, sec_suffix_cons, sec_str,
              if_pos rfl]
            simp [List.append_assoc]
          · rcases hfits with h | h
            · exact Or.inl h
            · exact Or.inr (by simp [h])
        · rw [List.forall₂_map_right_iff]
          refine hf2.imp ?_
          intro leaf p hlp
          obtain ⟨hname, hlen, hfits⟩ := hlp
          refine ⟨?_, by simpa using Nat.succ_le_succ hlen, ?_⟩
          · rw [hname]
            simp only [Option.getD_some, String.data_append, sec_suffix_cons, sec_str]
            simp [List.append_assoc]
          · rcases hfits with h | h
            · exact Or.inl h
            · exact Or.inr (by simp [h])
      · rw [List.pairwise_append]
        refine ⟨?_, ?_, ?_⟩
        · rw [List.pairwise_map]
          refine hp1.imp ?_
          intro p q hpq
          exact ⟨fun hc => hpq.1 hc.2, fun hc => hpq.2 hc.2⟩
        · rw [List.pairwise_map]
          refine hp2.imp ?_
          intro p q hpq
          exact ⟨fun hc => hpq.1 hc.2, fun hc => hpq.2 hc.2⟩
        · intro a ha b hb
          obtain ⟨p, _, hpa⟩ := List.mem_map.mp ha
          obtain ⟨q, _, hqb⟩ := List.mem_map.mp hb
          subst hpa hqb
          exact ⟨fun hc => by simpa using hc.1, fun hc => by simpa using hc.1⟩

/-- Oversized input: the splitter removes the original handle and then
reads its `dimensions` attribute (lines 521 and 530 of
blender_utils.py). -/
lemma split_levels_read_after_remove (B : Backend) (obj : Mesh) (px py pz : ℚ)
    (bn : Option String) (lev : Nat) (s : Scene) (h : ¬ fits_plate obj px py pz) :
    ∃ t, (split_levels B obj px py pz bn (lev + 1) s).2.events = s.events ++ t
      ∧ read_after_remove obj.id t := by
  rw [split_levels_split B obj px py pz bn lev s h]
  dsimp only
  obtain ⟨t0, ht0, -, -⟩ := split_step_events B obj (bn.getD obj.name)
    (choose_split obj.dims_mm ⟨px, py, pz⟩).2 (s.emit (.readDims obj.id))
  obtain ⟨t1, ht1, -, -⟩ := split_levels_trace lev B
    (split_step B obj (bn.getD obj.name) (choose_split obj.dims_mm ⟨px, py, pz⟩).2
      (s.emit (.readDims obj.id))).1 px py pz (some (bn.getD obj.name ++ "_sec1"))
    (split_step B obj (bn.getD obj.name) (choose_split obj.dims_mm ⟨px, py, pz⟩).2
      (s.emit (.readDims obj.id))).2.2
  obtain ⟨t2, ht2, -, -⟩ := split_levels_trace lev B
    (split_step B obj (bn.getD obj.name) (choose_split obj.dims_mm ⟨px, py, pz⟩).2
      (s.emit (.readDims obj.id))).2.1 px py pz (some (bn.getD obj.name ++ "_sec2"))
    (split_levels B
      (split_step B obj (bn.getD obj.name) (choose_split obj.dims_mm ⟨px, py, pz⟩).2
        (s.emit (.readDims obj.id))).1 px py pz (some (bn.getD obj.name ++ "_sec1")) lev
      (split_step B obj (bn.getD obj.name) (choose_split obj.dims_mm ⟨px, py, pz⟩).2
        (s.emit (.readDims obj.id))).2.2).2
  refine ⟨[Event.readDims obj.id]
      ++ cut_trace obj (bn.getD obj.name) (choose_split obj.dims_mm ⟨px, py, pz⟩).2
          (s.emit (.readDims obj.id)).nextId
      ++ (other_axes_of (choose_split obj.dims_mm ⟨px, py, pz⟩).2).map
          (fun _ => Event.readDims obj.id)
      ++ t0 ++ t1 ++ t2, ?_, ?_⟩
  · rw [ht2, ht1, ht0]
    simp [Scene.emit]
  · refine ⟨Event.readDims obj.id
        :: (cut_trace obj (bn.getD obj.name) (choose_split obj.dims_mm ⟨px, py, pz⟩).2
            (s.emit (.readDims obj.id)).nextId).dropLast,
      (other_axes_of (choose_split obj.dims_mm ⟨px, py, pz⟩).2).map
          (fun _ => Event.readDims obj.id) ++ t0 ++ t1 ++ t2, ?_, ?_⟩
    · rw [show ∀ o b a n, cut_trace o b a n = (cut_trace o b a n).dropLast
          ++ [Event.removeObj o.id] from fun o b a n => by simp [cut_trace]]
      simp [List.append_assoc, cut_trace]
    · rcases List.exists_mem_of_ne_nil _ (other_axes_ne_nil
        (choose_split obj.dims_mm ⟨px, py, pz⟩).2) with ⟨a, haa⟩
      simp only [List.mem_append]
      exact Or.inl (Or.inl (Or.inl (List.mem_map.mpr ⟨a, haa, rfl⟩)))

/-! ### Scene-independence (determinism) of the splitter -/

lemma dims_mm_congr {o1 o2 : Mesh} (h : o1.geom = o2.geom) : o1.dims_mm = o2.dims_mm := by
  simp [Mesh.dims_mm, Mesh.dimensions, h]

lemma fits_congr {o1 o2 : Mesh} (h : o1.geom = o2.geom) (px py pz : ℚ) :
    fits_plate o1 px py pz ↔ fits_plate o2 px py pz := by
  unfold fits_plate
  rw [dims_mm_congr h]

lemma pin_offset_congr {o1 o2 : Mesh} (h : o1.geom = o2.geom) (sx ax : Nat) :
    pin_offset o1 sx ax = pin_offset o2 sx ax := by
  simp [pin_offset, cut_midpoint, Mesh.bbox_min, Mesh.bbox_max, Mesh.dimensions, h]

lemma half_cut_geom_congr (B : Backend) {o1 o2 : Mesh} (h : o1.geom = o2.geom)
    (ax : Nat) (u : Bool) : half_cut_geom B o1 ax u = half_cut_geom B o2 ax u := by
  simp [half_cut_geom, cut_midpoint, Mesh.bbox_min, Mesh.bbox_max, Mesh.dimensions, h]

lemma split_step_geom_congr (B : Backend) {o1 o2 : Mesh} (h : o1.geom = o2.geom)
    (bn1 bn2 : String) (ax : Nat) (s1 s2 : Scene) :
    (split_step B o1 bn1 ax s1).1.geom = (split_step B o2 bn2 ax s2).1.geom
    ∧ (split_step B o1 bn1 ax s1).2.1.geom = (split_step B o2 bn2 ax s2).2.1.geom := by
  rw [split_step_fst, split_step_fst, split_step_snd, split_step_snd]
  constructor
  · show holes_fold _ _ _ _ = holes_fold _ _ _ _
    rw [half_cut_geom_congr B h,
      show (other_axes_of ax).map (pin_offset o1 ax) = (other_axes_of ax).map (pin_offset o2 ax)
        from List.map_congr_left (fun a _ => pin_offset_congr h ax a)]
  · show posts_fold _ _ _ _ = posts_fold _ _ _ _
    rw [half_cut_geom_congr B h,
      show (other_axes_of ax).map (pin_offset o1 ax) = (other_axes_of ax).map (pin_offset o2 ax)
        from List.map_congr_left (fun a _ => pin_offset_congr h ax a)]

/-- The leaf names produced by the splitter depend only on the mesh's
geometry and name, the plate bounds and the base name — not on the
ambient scene state (event history or next handle id). -/
lemma split_levels_scene_indep : ∀ (lev : Nat) (B : Backend) (px py pz : ℚ)
    (bn : Option String) (o1 o2 : Mesh) (s1 s2 : Scene),
    o1.geom = o2.geom → o1.name = o2.name →
    (split_levels B o1 px py pz bn lev s1).1.map Prod.fst
      = (split_levels B o2 px py pz bn lev s2).1.map Prod.fst := by
  intro lev
  induction lev with
  | zero =>
    intro B px py pz bn o1 o2 s1 s2 hg hn
    simp [split_levels_zero, hn]
  | succ lev ih =>
    intro B px py pz bn o1 o2 s1 s2 hg hn
    by_cases hfit : fits_plate o1 px py pz
    · rw [split_levels_fit B o1 px py pz bn lev s1 hfit,
        split_levels_fit B o2 px py pz bn lev s2 ((fits_congr hg px py pz).mp hfit)]
      simp [hn]
    · have hfit2 : ¬ fits_plate o2 px py pz := fun hc => hfit ((fits_congr hg px py pz).mpr hc)
      rw [split_levels_split B o1 px py pz bn lev s1 hfit,
        split_levels_split B o2 px py pz bn lev s2 hfit2]
      dsimp only
      rw [dims_mm_congr hg, hn]
      obtain ⟨hg1, hg2⟩ := split_step_geom_congr B hg (bn.getD o2.name) (bn.getD o2.name)
        (choose_split o2.dims_mm ⟨px, py, pz⟩).2 (s1.emit (.readDims o1.id))
        (s2.emit (.readDims o2.id))
      have hn1 : (split_step B o1 (bn.getD o2.name)
            (choose_split o2.dims_mm ⟨px, py, pz⟩).2 (s1.emit (.readDims o1.id))).1.name
          = (split_step B o2 (bn.getD o2.name)
            (choose_split o2.dims_mm ⟨px, py, pz⟩).2 (s2.emit (.readDims o2.id))).1.name := by
        rw [split_step_fst, split_step_fst]
      have hn2 : (split_step B o1 (bn.getD o2.name)
            (choose_split o2.dims_mm ⟨px, py, pz⟩).2 (s1.emit (.readDims o1.id))).2.1.name
          = (split_step B o2 (bn.getD o2.name)
            (choose_split o2.dims_mm ⟨px, py, pz⟩).2 (s2.emit (.readDims o2.id))).2.1.name := by
        rw [split_step_snd, split_step_snd]
      rw [List.map_append, List.map_append]
      rw [ih B px py pz (some (bn.getD o2.name ++ "_sec1")) _ _ _ _ hg1 hn1,
        ih B px py pz (some (bn.getD o2.name ++ "_sec2")) _ _ _ _ hg2 hn2]

/-! ### Mirroring lemmas -/

lemma mirror_object_X (m : Mesh) (nm : String) (s : Scene) :
    mirror_object m "X" (some nm) s
      = (⟨s.nextId, nm, m.geom.mirrorX⟩,
         ⟨s.nextId + 1, s.events
            ++ [Event.duplicateObj m.id s.nextId nm, Event.mirrorObj m.id s.nextId "X" nm]⟩) := by
  simp [mirror_object, duplicate_object, Scene.emit, Scene.fresh]

/-- Every mirrored segment set is the wholesale X-mirror of the source
set: same order, names with `_left` replaced by `_right`, geometry
mirrored, nothing regenerated; and it only appends to the trace. -/
lemma mirror_segments_spec (segs : List (String × Mesh)) (s : Scene) :
    List.Forall₂ (fun (l r : String × Mesh) =>
        r.1 = l.1.replace "_left" "_right"
        ∧ ∃ i, r.2 = ⟨i, l.1.replace "_left" "_right", l.2.geom.mirrorX⟩)
      segs (mirror_segments segs s).1
    ∧ ∃ t, (mirror_segments segs s).2.events = s.events ++ t := by
  have key : ∀ (segs : List (String × Mesh)) (acc : List (String × Mesh)) (s0 : Scene),
      ∃ newl s',
        segs.foldl (fun (acc : List (String × Mesh) × Scene) seg =>
          let right_name := seg.1.replace "_left" "_right"
          let mres := mirror_object seg.2 "X" (some right_name) acc.2
          (acc.1 ++ [(right_name, mres.1)], mres.2)) (acc, s0)
        = (acc ++ newl, s')
        ∧ List.Forall₂ (fun (l r : String × Mesh) =>
            r.1 = l.1.replace "_left" "_right"
            ∧ ∃ i, r.2 = ⟨i, l.1.replace "_left" "_right", l.2.geom.mirrorX⟩) segs newl
        ∧ ∃ t, s'.events = s0.events ++ t := by
    intro segs
    induction segs with
    | nil =>
      intro acc s0
      exact ⟨[], s0, by simp, List.Forall₂.nil, [], by simp⟩
    | cons seg rest ih =>
      intro acc s0
      obtain ⟨newl, s', heq, hf, t, ht⟩ := ih
        (acc ++ [(seg.1.replace "_left" "_right",
          (mirror_object seg.2 "X" (some (seg.1.replace "_left" "_right")) s0).1)])
        (mirror_object seg.2 "X" (some (seg.1.replace "_left" "_right")) s0).2
      refine ⟨(seg.1.replace "_left" "_right",
          (mirror_object seg.2 "X" (some (seg.1.replace "_left" "_right")) s0).1) :: newl,
        s', ?_, ?_, ?_⟩
      · rw [List.foldl_cons]
        dsimp only
        rw [heq]
        simp
      · refine List.forall₂_cons.mpr ⟨⟨rfl, ?_⟩, hf⟩
        rw [mirror_object_X]
        exact ⟨s0.nextId, rfl⟩
      · rw [ht, mirror_object_X]
        exact ⟨[Event.duplicateObj seg.2.id s0.nextId (seg.1.replace "_left" "_right"),
          Event.mirrorObj seg.2.id s0.nextId "X" (seg.1.replace "_left" "_right")] ++ t,
          by simp⟩
  obtain ⟨newl, s', heq, hf, t, ht⟩ := key segs [] s
  unfold mirror_segments
  rw [heq]
  exact ⟨by simpa using hf, t, ht⟩

/-! ### Dict merge lemmas -/

lemma dict_insert_fresh (d : List (String × Mesh)) (k : String) (v : Mesh)
    (h : ∀ p ∈ d, p.1 ≠ k) : dict_insert d k v = d ++ [(k, v)] := by
  unfold dict_insert
  rw [if_neg]
  intro hc
  simp only [List.any_eq_true, decide_eq_true_eq] at hc
  obtain ⟨p, hp, he⟩ := hc
  exact h p hp he

lemma dict_fold_append : ∀ (parts acc : List (String × Mesh)),
    ((acc ++ parts).map Prod.fst).Pairwise (· ≠ ·) →
    parts.foldl (fun r p => dict_insert r p.1 p.2) acc = acc ++ parts := by
  intro parts
  induction parts with
  | nil => intro acc _; simp
  | cons p rest ih =>
    intro acc h
    have hfresh : ∀ q ∈ acc, q.1 ≠ p.1 := by
      intro q hq
      have := (List.pairwise_append.mp (by simpa using h)).2.2
      exact this q.1 (List.mem_map.mpr ⟨q, hq, rfl⟩) p.1 (by simp)
    rw [List.foldl_cons, dict_insert_fresh acc p.1 p.2 hfresh, ih (acc ++ [p])
      (by simpa [List.append_assoc] using h)]
    simp

/-- All leaf names of one splitter run on base name `b` extend `b`, and
they are pairwise distinct. -/
lemma split_parts_names (B : Backend) (m : Mesh) (px py pz : ℚ) (b : String) (s : Scene) :
    (∀ nm ∈ (split_object_for_plate B m px py pz (some b) 0 s).1.map Prod.fst,
        ∃ p : List Bool, nm.data = b.data ++ sec_suffix p)
    ∧ ((split_object_for_plate B m px py pz (some b) 0 s).1.map Prod.fst).Pairwise (· ≠ ·) := by
  obtain ⟨ps, hf, hp⟩ := split_levels_names 5 B m px py pz (some b) s
  constructor
  · intro nm hnm
    obtain ⟨leaf, hleaf, hfst⟩ := List.mem_map.mp hnm
    obtain ⟨p, _, hr⟩ := forall₂_mem_left hf leaf hleaf
    exact ⟨p, by rw [← hfst]; simpa using hr.1⟩
  · rw [List.pairwise_map]
    refine pairwise_of_forall₂ hf hp ?_
    intro a c p q hap hcq hpq
    intro heq
    have ha : a.1.data = b.data ++ sec_suffix p := by simpa using hap.1
    have hc : c.1.data = b.data ++ sec_suffix q := by simpa using hcq.1
    exact name_ne_of_incomp b.data hpq (by rw [← ha, ← hc, heq])

/-- Master merge lemma: starting from an accumulator whose names extend
the already-processed base names, with all base names pairwise
non-extending, the overwrite-merge of `split_for_build_plate` equals the
pure concatenation merge, and the merged names stay pairwise
distinct. -/
lemma merge_master (B : Backend) (px py pz : ℚ) :
    ∀ (segs : List (String × Mesh)) (acc : List (String × Mesh)) (s : Scene)
      (doneB : List String),
    (∀ nm ∈ acc.map Prod.fst, ∃ b ∈ doneB, ∃ p : List Bool, nm.data = b.data ++ sec_suffix p) →
    (acc.map Prod.fst).Pairwise (· ≠ ·) →
    List.Pairwise (fun a b => ¬ leadsTo a.data b.data ∧ ¬ leadsTo b.data a.data)
      (doneB ++ segs.map Prod.fst) →
    segs.foldl (fun (acc : List (String × Mesh) × Scene) seg =>
        let parts := split_object_for_plate B seg.2 px py pz (some seg.1) 0 acc.2
        (parts.1.foldl (fun r p => dict_insert r p.1 p.2) acc.1, parts.2)) (acc, s)
      = segs.foldl (fun (acc : List (String × Mesh) × Scene) seg =>
          let parts := split_object_for_plate B seg.2 px py pz (some seg.1) 0 acc.2
          (acc.1 ++ parts.1, parts.2)) (acc, s)
    ∧ (((segs.foldl (fun (acc : List (String × Mesh) × Scene) seg =>
          let parts := split_object_for_plate B seg.2 px py pz (some seg.1) 0 acc.2
          (acc.1 ++ parts.1, parts.2)) (acc, s)).1.map Prod.fst).Pairwise (· ≠ ·))
    ∧ ∀ nm ∈ (segs.foldl (fun (acc : List (String × Mesh) × Scene) seg =>
          let parts := split_object_for_plate B seg.2 px py pz (some seg.1) 0 acc.2
          (acc.1 ++ parts.1, parts.2)) (acc, s)).1.map Prod.fst,
        ∃ b ∈ doneB ++ segs.map Prod.fst, ∃ p : List Bool, nm.data = b.data ++ sec_suffix p := by
  intro segs
  induction segs with
  | nil =>
    intro acc s doneB hacc haccp _
    exact ⟨rfl, haccp, by simpa using hacc⟩
  | cons seg rest ih =>
    intro acc s doneB hacc haccp hsep
    obtain ⟨hcov, hpart⟩ := split_parts_names B seg.2 px py pz seg.1 s
    have hsepheadall : ∀ b ∈ doneB, ¬ leadsTo b.data seg.1.data ∧ ¬ leadsTo seg.1.data b.data := by
      intro b hb
      have := (List.pairwise_append.mp hsep).2.2 b hb seg.1 (by simp)
      exact this
    have hcross : ∀ x ∈ acc.map Prod.fst,
        ∀ y ∈ (split_object_for_plate B seg.2 px py pz (some seg.1) 0 s).1.map Prod.fst,
        x ≠ y := by
      intro x hx y hy
      obtain ⟨b, hb, p, hxp⟩ := hacc x hx
      obtain ⟨q, hyq⟩ := hcov y hy
      intro heq
      have : x.data = y.data := by rw [heq]
      rw [hxp, hyq] at this
      exact ne_append_of_incomp (hsepheadall b hb) (sec_suffix p) (sec_suffix q) this
    have hbig : ((acc ++ (split_object_for_plate B seg.2 px py pz (some seg.1) 0 s).1).map
        Prod.fst).Pairwise (· ≠ ·) := by
      rw [List.map_append, List.pairwise_append]
      exact ⟨haccp, hpart, hcross⟩
    have hne : (rest.map Prod.fst).Pairwise
        (fun a b => ¬ leadsTo a.data b.data ∧ ¬ leadsTo b.data a.data) := by
      have := (List.pairwise_append.mp hsep).2.1
      exact (List.pairwise_cons.mp this).2
    obtain ⟨ihEq, ihP, ihCov⟩ := ih
      (acc ++ (split_object_for_plate B seg.2 px py pz (some seg.1) 0 s).1)
      (split_object_for_plate B seg.2 px py pz (some seg.1) 0 s).2
      (doneB ++ [seg.1])
      (by
        intro nm hnm
        rw [List.map_append, List.mem_append] at hnm
        rcases hnm with h | h
        · obtain ⟨b, hb, p, hp⟩ := hacc nm h
          exact ⟨b, by simp [hb], p, hp⟩
        · obtain ⟨p, hp⟩ := hcov nm h
          exact ⟨seg.1, by simp, p, hp⟩)
      hbig
      (by
        have : (doneB ++ [seg.1]) ++ rest.map Prod.fst
            = doneB ++ (seg :: rest).map Prod.fst := by simp
        rw [this]
        exact hsep)
    refine ⟨?_, ?_, ?_⟩
    · rw [List.foldl_cons, List.foldl_cons]
      dsimp only
      rw [dict_fold_append _ _ hbig]
      exact ihEq
    · rw [List.foldl_cons]
      dsimp only
      exact ihP
    · rw [List.foldl_cons]
      dsimp only
      intro nm hnm
      obtain ⟨b, hb, p, hp⟩ := ihCov nm hnm
      refine ⟨b, ?_, p, hp⟩
      simp only [List.mem_append, List.map_cons, List.mem_cons] at hb ⊢
      tauto

/-! ### Claim theorems -/

/-- C1: every leaf returned by `split_object_for_plate` either fits the
plate bounds on all three axes, or is a leaf of the recursion-depth
guard, i.e. carries a split lineage of length exactly 5 (the cap) in its
name. -/
theorem c1_fit_invariant (B : Backend) (obj : Mesh) (px py pz : ℚ) (bn : Option String)
    (s : Scene) :
    ∀ leaf ∈ (split_object_for_plate B obj px py pz bn 0 s).1,
      fits_plate leaf.2 px py pz
      ∨ ∃ p : List Bool, p.length = 5
          ∧ leaf.1.data = (bn.getD obj.name).data ++ sec_suffix p := by
  intro leaf hleaf
  obtain ⟨ps, hf, -⟩ := split_levels_names 5 B obj px py pz bn s
  obtain ⟨p, -, hname, -, hfits⟩ := forall₂_mem_left hf leaf hleaf
  rcases hfits with h | h
  · exact Or.inl h
  · exact Or.inr ⟨p, h, hname⟩

/-- C1 witness: concrete run on a fitting 250mm cube. -/
theorem c1_fit_invariant_witness :
    ("base", demoFitMesh)
        ∈ (split_object_for_plate demoBackend demoFitMesh 256 256 256 (some "base") 0
            demoScene).1
    ∧ (fits_plate demoFitMesh 256 256 256
        ∨ ∃ p : List Bool, p.length = 5 ∧ "base".data = "base".data ++ sec_suffix p) := by
  have hfit : fits_plate demoFitMesh 256 256 256 := by
    norm_num [fits_plate, Mesh.dims_mm, Mesh.dimensions, Vec3.sub, demoFitMesh]
  have hmem : ("base", demoFitMesh)
      ∈ (split_object_for_plate demoBackend demoFitMesh 256 256 256 (some "base") 0
          demoScene).1 := by
    show ("base", demoFitMesh)
      ∈ (split_levels demoBackend demoFitMesh 256 256 256 (some "base") 5 demoScene).1
    rw [show (5 : Nat) = 4 + 1 from rfl,
      split_levels_fit demoBackend demoFitMesh 256 256 256 (some "base") 4 demoScene hfit]
    simp
  refine ⟨hmem, ?_⟩
  exact c1_fit_invariant demoBackend demoFitMesh 256 256 256 (some "base") demoScene
    ("base", demoFitMesh) hmem

/-- C2 (amended): every pin-post call of the splitter has the same
`(location, direction)` as its paired pin-hole call — the direction is
the positive split-axis unit vector for both, not the negation. -/
theorem c2_pairing (B : Backend) (obj : Mesh) (px py pz : ℚ) (bn : Option String)
    (d : Nat) (s : Scene) :
    ∃ t, (split_object_for_plate B obj px py pz bn d s).2.events = s.events ++ t
      ∧ hole_call_args t = post_call_args t
      ∧ ∀ pr ∈ hole_call_args t,
          ∃ ax, (ax = 0 ∨ ax = 1 ∨ ax = 2) ∧ pr.2 = Vec3.zero.set ax 1 :=
  split_levels_trace (5 - d) B obj px py pz bn s

/-- C2 witness: the pairing theorem at a concrete oversized box. -/
theorem c2_pairing_witness :
    ∃ t, (split_object_for_plate demoBackend demoMesh 256 256 256 none 0 demoScene).2.events
        = demoScene.events ++ t
      ∧ hole_call_args t = post_call_args t
      ∧ ∀ pr ∈ hole_call_args t,
          ∃ ax, (ax = 0 ∨ ax = 1 ∨ ax = 2) ∧ pr.2 = Vec3.zero.set ax 1 :=
  c2_pairing demoBackend demoMesh 256 256 256 none 0 demoScene

/-- C3: the post cylinder radius is `diameter/2 - clearance` while the
hole cylinder radius is `diameter/2`, so the post diameter is exactly
the hole diameter minus `2 x clearance`; with the defaults (2mm, 0.1mm)
the post diameter is exactly 1.8mm, and `create_alignment_pin_post`
builds its cylinder with exactly that radius. -/
theorem c3_clearance :
    (∀ diameter clearance : ℚ,
      2 * pin_post_radius diameter clearance = 2 * pin_hole_radius diameter - 2 * clearance)
    ∧ 2 * pin_post_radius 0.002 0.0001 = 0.0018
    ∧ 2 * pin_hole_radius 0.002 = 0.002
    ∧ ∀ (B : Backend) (obj : Mesh) (l dir : Vec3) (dia hei cl : ℚ) (s : Scene),
        (create_alignment_pin_post B obj l dir dia hei cl s).1.geom
          = B.unionGeom obj.geom (orient_geom dir (cylinder_geom (pin_post_radius dia cl) hei l)) := by
  refine ⟨?_, ?_, ?_, ?_⟩
  · intro d c; unfold pin_post_radius pin_hole_radius; ring
  · norm_num [pin_post_radius]
  · norm_num [pin_hole_radius]
  · intro B obj l dir dia hei cl s
    rw [pin_post_result]

/-- C4: the splitter is deterministic — the leaf names and leaf count do
not depend on the ambient scene state — and the split-axis choice is the
maximal oversize with the earliest axis (X, then Y, then Z) among ties,
as the stable descending sort guarantees. -/
theorem c4_determinism :
    (∀ (B : Backend) (obj : Mesh) (px py pz : ℚ) (bn : Option String) (d : Nat)
        (s1 s2 : Scene),
      (split_object_for_plate B obj px py pz bn d s1).1.map Prod.fst
        = (split_object_for_plate B obj px py pz bn d s2).1.map Prod.fst
      ∧ (split_object_for_plate B obj px py pz bn d s1).1.length
        = (split_object_for_plate B obj px py pz bn d s2).1.length)
    ∧ (∀ dm pl : Vec3, choose_split dm pl
        = (qmax (dm.x - pl.x) (qmax (dm.y - pl.y) (dm.z - pl.z)),
           spec_split_axis (dm.x - pl.x) (dm.y - pl.y) (dm.z - pl.z)))
    ∧ ∀ ox oy oz : ℚ,
        [ox, oy, oz].getD (spec_split_axis ox oy oz) 0 = qmax ox (qmax oy oz)
        ∧ ∀ i < spec_split_axis ox oy oz, [ox, oy, oz].getD i 0 < qmax ox (qmax oy oz) := by
  refine ⟨?_, choose_split_eq, spec_split_axis_least⟩
  intro B obj px py pz bn d s1 s2
  have h := split_levels_scene_indep (5 - d) B px py pz bn obj obj s1 s2 rfl rfl
  refine ⟨h, ?_⟩
  have := congrArg List.length h
  simpa using this

/-- C4 witness: equal names across different scene states, and the
concrete axis choice for a 300x200x100 box on a 256 plate. -/
theorem c4_determinism_witness :
    ((split_object_for_plate demoBackend demoMesh 256 256 256 none 0 demoScene).1.map
        Prod.fst
      = (split_object_for_plate demoBackend demoMesh 256 256 256 none 0
          ⟨99, [Event.readBBox 7]⟩).1.map Prod.fst)
    ∧ choose_split ⟨300, 200, 100⟩ ⟨256, 256, 256⟩ = (44, 0) := by
  constructor
  · exact (c4_determinism.1 demoBackend demoMesh 256 256 256 none 0 demoScene
      ⟨99, [Event.readBBox 7]⟩).1
  · rw [c4_determinism.2.1 ⟨300, 200, 100⟩ ⟨256, 256, 256⟩]
    norm_num [spec_split_axis, qmax]

/-- C5: the splitter always terminates (it is a total function) and a
top-level invocation returns at most `2 ^ 5 = 32` leaf segments. -/
theorem c5_leaf_bound (B : Backend) (obj : Mesh) (px py pz : ℚ) (bn : Option String)
    (s : Scene) :
    (split_object_for_plate B obj px py pz bn 0 s).1.length ≤ 32 := by
  have h := split_levels_length 5 B obj px py pz bn s
  simpa using h

/-- C6: a mesh that already fits is returned as the single `[(base_name,
mesh)]` with the identical handle; the scene gains only the dimension
read — no duplication, no cut, no connectors. -/
theorem c6_fit_identity (B : Backend) (obj : Mesh) (px py pz : ℚ) (bn : Option String)
    (d : Nat) (s : Scene) (hd : d ≤ 4) (hfit : fits_plate obj px py pz) :
    split_object_for_plate B obj px py pz bn d s
      = ([(bn.getD obj.name, obj)], s.emit (.readDims obj.id)) := by
  unfold split_object_for_plate
  have h5 : 5 - d = (4 - d) + 1 := by omega
  rw [h5, split_levels_fit B obj px py pz bn (4 - d) s hfit]

/-- C6 witness: the 250mm cube against the 256mm plate. -/
theorem c6_fit_identity_witness :
    (0 : Nat) ≤ 4 ∧ fits_plate demoFitMesh 256 256 256
    ∧ split_object_for_plate demoBackend demoFitMesh 256 256 256 (some "base") 0 demoScene
        = ([("base", demoFitMesh)], demoScene.emit (.readDims demoFitMesh.id)) := by
  have hfit : fits_plate demoFitMesh 256 256 256 := by
    norm_num [fits_plate, Mesh.dims_mm, Mesh.dimensions, Vec3.sub, demoFitMesh]
  exact ⟨by norm_num, hfit,
    c6_fit_identity demoBackend demoFitMesh 256 256 256 (some "base") 0 demoScene
      (by norm_num) hfit⟩

/-- C8: on any oversized input within the depth cap, the splitter first
removes the original mesh handle from the scene and later reads that
same handle's `dimensions` attribute (while computing the pin offsets) —
the read-after-destroy the resource model forbids. -/
theorem c8_read_after_remove (B : Backend) (obj : Mesh) (px py pz : ℚ) (bn : Option String)
    (d : Nat) (s : Scene) (hd : d ≤ 4) (h : ¬ fits_plate obj px py pz) :
    ∃ t, (split_object_for_plate B obj px py pz bn d s).2.events = s.events ++ t
      ∧ read_after_remove obj.id t := by
  unfold split_object_for_plate
  have h5 : 5 - d = (4 - d) + 1 := by omega
  rw [h5]
  exact split_levels_read_after_remove B obj px py pz bn (4 - d) s h

/-- C8 witness: the oversized 300x200x100 box triggers the
read-after-remove. -/
theorem c8_read_after_remove_witness :
    (0 : Nat) ≤ 4 ∧ ¬ fits_plate demoMesh 256 256 256
    ∧ ∃ t, (split_object_for_plate demoBackend demoMesh 256 256 256 none 0
          demoScene).2.events = demoScene.events ++ t
        ∧ read_after_remove demoMesh.id t := by
  have h : ¬ fits_plate demoMesh 256 256 256 := by
    norm_num [fits_plate, Mesh.dims_mm, Mesh.dimensions, Vec3.sub, demoMesh]
  exact ⟨by norm_num, h,
    c8_read_after_remove demoBackend demoMesh 256 256 256 none 0 demoScene (by norm_num) h⟩

/-- C9: `export_pair_segmented` generates the left segment set once (all
connector geometry already inside the generator), derives every
right-side segment by X-mirroring the corresponding left segment with
`_left` renamed to `_right`, and only then splits/exports; the mirroring
trace strictly extends the generation trace. -/
theorem c9_mirror_wholesale (B : Backend) (gen : Scene → List (String × Mesh) × Scene)
    (base_name output_dir : String) (px py pz : ℚ) (auto_split : Bool) (s : Scene) :
    export_pair_segmented B gen base_name output_dir px py pz auto_split s
      = export_sides B base_name output_dir px py pz auto_split (gen s).1
          (mirror_segments (gen s).1 (gen s).2).1 (mirror_segments (gen s).1 (gen s).2).2
    ∧ List.Forall₂ (fun (l r : String × Mesh) =>
        r.1 = l.1.replace "_left" "_right"
        ∧ ∃ i, r.2 = ⟨i, l.1.replace "_left" "_right", l.2.geom.mirrorX⟩)
      (gen s).1 (mirror_segments (gen s).1 (gen s).2).1
    ∧ ∃ t, (mirror_segments (gen s).1 (gen s).2).2.events = (gen s).2.events ++ t :=
  ⟨rfl, (mirror_segments_spec (gen s).1 (gen s).2).1, (mirror_segments_spec (gen s).1 (gen s).2).2⟩

/-- C10: the gauntlet segment names are pairwise distinct (and pairwise
non-extending), and for every input segment set whose names are pairwise
non-extending, the splitter merge of `split_for_build_plate` equals the
lossless concatenation merge — no mesh is lost to a name collision — and
the merged names are pairwise distinct. -/
theorem c10_segment_names :
    names_separated (gauntlet_segment_names "gauntlet")
    ∧ (gauntlet_segment_names "gauntlet").Pairwise (· ≠ ·)
    ∧ ∀ (B : Backend) (segs : List (String × Mesh)) (px py pz : ℚ) (s : Scene),
        names_separated (segs.map Prod.fst) →
        split_for_build_plate B segs px py pz s
          = split_for_build_plate_concat B segs px py pz s
        ∧ ((split_for_build_plate B segs px py pz s).1.map Prod.fst).Pairwise (· ≠ ·) := by
  refine ⟨by decide, by decide, ?_⟩
  intro B segs px py pz s hsep
  obtain ⟨hEq, hP, -⟩ := merge_master B px py pz segs [] s []
    (by simp) (by simp) (by simpa [names_separated] using hsep)
  have hEq2 : split_for_build_plate B segs px py pz s
      = split_for_build_plate_concat B segs px py pz s := hEq
  refine ⟨hEq2, ?_⟩
  rw [hEq2]
  exact hP

/-- C10 witness: a single fitting segment named `base`. -/
theorem c10_segment_names_witness :
    names_separated ([("base", demoFitMesh)].map Prod.fst)
    ∧ split_for_build_plate demoBackend [("base", demoFitMesh)] 256 256 256 demoScene
        = split_for_build_plate_concat demoBackend [("base", demoFitMesh)] 256 256 256
            demoScene := by
  refine ⟨by decide, ?_⟩
  exact (c10_segment_names.2.2 demoBackend [("base", demoFitMesh)] 256 256 256 demoScene
    (by decide)).1

/-- C7 counterexample: for direction `(0, -1, 0)` — which
`gauntlets.generate_segments_base` actually passes — the orientation
branch matches neither handled case, the cutting cylinder keeps its
default Z axis, and that axis is not parallel to the requested
direction. -/
theorem c7_counterexample :
    (orient_geom ⟨0, -1, 0⟩
        (cylinder_geom (pin_hole_radius 0.002) (0.003 * 2) Vec3.zero)).axisZ = ⟨0, 0, 1⟩
    ∧ ¬ parallelVec
        ((orient_geom ⟨0, -1, 0⟩
          (cylinder_geom (pin_hole_radius 0.002) (0.003 * 2) Vec3.zero)).axisZ)
        ⟨0, -1, 0⟩ := by
  have h : orient_geom ⟨0, -1, 0⟩ (cylinder_geom (pin_hole_radius 0.002) (0.003 * 2) Vec3.zero)
      = cylinder_geom (pin_hole_radius 0.002) (0.003 * 2) Vec3.zero := by
    unfold orient_geom
    rw [if_neg (by intro hc; injection hc with h1 h2 h3; exact absurd h1 (by norm_num)),
      if_neg (by intro hc; injection hc with h1 h2 h3; exact absurd h2 (by norm_num))]
  rw [h]
  refine ⟨rfl, ?_⟩
  unfold parallelVec Vec3.cross cylinder_geom Vec3.zero
  intro hc
  injection hc with h1 h2 h3
  norm_num at h1

/-- C7 (amended): for directions `(1,0,0)`, `(0,1,0)`, `(0,0,1)` and
`(0,0,-1)` the pin cylinder's axis after the orientation branch is
parallel to the direction (for `(0,0,-1)` because the default Z axis is
already parallel to it); the hole's cutter has depth `2 x depth`
centered at `location`; and `create_alignment_pin_post` applies the same
orientation mapping.  Directions `(-1,0,0)` and `(0,-1,0)` fall through
to the default no-rotation orientation. -/
theorem c7_orientation :
    (∀ r d : ℚ, ∀ l : Vec3,
      parallelVec ((orient_geom ⟨1, 0, 0⟩ (cylinder_geom r d l)).axisZ) ⟨1, 0, 0⟩
      ∧ parallelVec ((orient_geom ⟨0, 1, 0⟩ (cylinder_geom r d l)).axisZ) ⟨0, 1, 0⟩
      ∧ parallelVec ((orient_geom ⟨0, 0, 1⟩ (cylinder_geom r d l)).axisZ) ⟨0, 0, 1⟩
      ∧ parallelVec ((orient_geom ⟨0, 0, -1⟩ (cylinder_geom r d l)).axisZ) ⟨0, 0, -1⟩
      ∧ (orient_geom ⟨-1, 0, 0⟩ (cylinder_geom r d l)).axisZ = ⟨0, 0, 1⟩
      ∧ (orient_geom ⟨0, -1, 0⟩ (cylinder_geom r d l)).axisZ = ⟨0, 0, 1⟩)
    ∧ (∀ (B : Backend) (obj : Mesh) (l dir : Vec3) (dia dep : ℚ) (s : Scene),
      (create_alignment_pin_hole B obj l dir dia dep s).1
        = { obj with geom := B.diffGeom obj.geom (orient_geom dir (cylinder_geom (pin_hole_radius dia) (dep * 2) l)) })
    ∧ ∀ (B : Backend) (obj : Mesh) (l dir : Vec3) (dia hei cl : ℚ) (s : Scene),
      (create_alignment_pin_post B obj l dir dia hei cl s).1
        = { obj with geom := B.unionGeom obj.geom (orient_geom dir (cylinder_geom (pin_post_radius dia cl) hei l)) } := by
  refine ⟨?_, pin_hole_result, pin_post_result⟩
  intro r d l
  have hax : ∀ g : Geom, (rot_geom ⟨0, 90, 0⟩ g).axisZ = rotEulerXYZ ⟨0, 90, 0⟩ g.axisZ :=
    fun g => rfl
  refine ⟨?_, ?_, ?_, ?_, ?_, ?_⟩
  · rw [show orient_geom ⟨1, 0, 0⟩ (cylinder_geom r d l)
        = rot_geom ⟨0, 90, 0⟩ (cylinder_geom r d l) by simp [orient_geom]]
    show parallelVec (rotEulerXYZ ⟨0, 90, 0⟩ ⟨0, 0, 1⟩) ⟨1, 0, 0⟩
    norm_num [rotEulerXYZ, rotXdeg, rotYdeg, rotZdeg, cosd, sind, parallelVec, Vec3.cross,
      Vec3.zero]
  · rw [show orient_geom ⟨0, 1, 0⟩ (cylinder_geom r d l)
        = rot_geom ⟨90, 0, 0⟩ (cylinder_geom r d l) by
      unfold orient_geom
      rw [if_neg (by intro hc; injection hc with h1 h2 h3; exact absurd h1 (by norm_num)),
        if_pos rfl]]
    show parallelVec (rotEulerXYZ ⟨90, 0, 0⟩ ⟨0, 0, 1⟩) ⟨0, 1, 0⟩
    norm_num [rotEulerXYZ, rotXdeg, rotYdeg, rotZdeg, cosd, sind, parallelVec, Vec3.cross,
      Vec3.zero]
  · rw [show orient_geom ⟨0, 0, 1⟩ (cylinder_geom r d l) = cylinder_geom r d l by
      unfold orient_geom
      rw [if_neg (by intro hc; injection hc with h1 h2 h3; exact absurd h1 (by norm_num)),
        if_neg (by intro hc; injection hc with h1 h2 h3; exact absurd h2 (by norm_num))]]
    show parallelVec ⟨0, 0, 1⟩ ⟨0, 0, 1⟩
    norm_num [parallelVec, Vec3.cross, Vec3.zero]
  · rw [show orient_geom ⟨0, 0, -1⟩ (cylinder_geom r d l) = cylinder_geom r d l by
      unfold orient_geom
      rw [if_neg (by intro hc; injection hc with h1 h2 h3; exact absurd h1 (by norm_num)),
        if_neg (by intro hc; injection hc with h1 h2 h3; exact absurd h2 (by norm_num))]]
    show parallelVec ⟨0, 0, 1⟩ ⟨0, 0, -1⟩
    norm_num [parallelVec, Vec3.cross, Vec3.zero]
  · rw [show orient_geom ⟨-1, 0, 0⟩ (cylinder_geom r d l) = cylinder_geom r d l by
      unfold orient_geom
      rw [if_neg (by intro hc; injection hc with h1 h2 h3; exact absurd h1 (by norm_num)),
        if_neg (by intro hc; injection hc with h1 h2 h3; exact absurd h2 (by norm_num))]]
    rfl
  · rw [show orient_geom ⟨0, -1, 0⟩ (cylinder_geom r d l) = cylinder_geom r d l by
      unfold orient_geom
      rw [if_neg (by intro hc; injection hc with h1 h2 h3; exact absurd h1 (by norm_num)),
        if_neg (by intro hc; injection hc with h1 h2 h3; exact absurd h2 (by norm_num))]]
    rfl

/-- C2 counterexample: splitting the concrete 300x200x100 box cuts along
X and makes two pin-hole calls and two pin-post calls whose direction
vectors are all `(1,0,0)` — the posts' directions equal the holes'
directions, and `(1,0,0)` is not the negation of `(1,0,0)`, so the
claimed anti-parallel pairing fails on this input. -/
theorem c2_counterexample :
    ∃ t, (split_object_for_plate demoBackend demoMesh 256 256 256 none 0 demoScene).2.events
        = demoScene.events ++ t
      ∧ (hole_call_args t).map Prod.snd = [⟨1, 0, 0⟩, ⟨1, 0, 0⟩]
      ∧ (post_call_args t).map Prod.snd = [⟨1, 0, 0⟩, ⟨1, 0, 0⟩]
      ∧ ¬ ((⟨1, 0, 0⟩ : Vec3) = Vec3.neg ⟨1, 0, 0⟩) := by
  have hnf : ¬ fits_plate demoMesh 256 256 256 := by
    norm_num [fits_plate, Mesh.dims_mm, Mesh.dimensions, Vec3.sub, demoMesh]
  have hax : (choose_split demoMesh.dims_mm ⟨256, 256, 256⟩).2 = 0 := by
    rw [choose_split_eq]
    norm_num [Mesh.dims_mm, Mesh.dimensions, Vec3.sub, demoMesh, spec_split_axis]
  have hoa : other_axes_of 0 = [1, 2] := by decide
  have h1g : (split_step demoBackend demoMesh demoMesh.name 0
        (demoScene.emit (Event.readDims demoMesh.id))).1.geom
      = ⟨Vec3.zero, Vec3.zero, Vec3.zero, ⟨0, 0, 1⟩⟩ := by
    rw [split_step_fst, hoa]
    simp [holes_fold, demoBackend]
  have h2g : (split_step demoBackend demoMesh demoMesh.name 0
        (demoScene.emit (Event.readDims demoMesh.id))).2.1.geom
      = ⟨Vec3.zero, Vec3.zero, Vec3.zero, ⟨0, 0, 1⟩⟩ := by
    rw [split_step_snd, hoa]
    simp [posts_fold, half_cut_geom, demoBackend]
  have h1fit : fits_plate (split_step demoBackend demoMesh demoMesh.name 0
      (demoScene.emit (Event.readDims demoMesh.id))).1 256 256 256 := by
    unfold fits_plate Mesh.dims_mm Mesh.dimensions
    rw [h1g]
    norm_num [Vec3.sub, Vec3.zero]
  have h2fit : fits_plate (split_step demoBackend demoMesh demoMesh.name 0
      (demoScene.emit (Event.readDims demoMesh.id))).2.1 256 256 256 := by
    unfold fits_plate Mesh.dims_mm Mesh.dimensions
    rw [h2g]
    norm_num [Vec3.sub, Vec3.zero]
  obtain ⟨t0, ht0, ht0h, ht0p⟩ := split_step_events demoBackend demoMesh demoMesh.name 0
    (demoScene.emit (Event.readDims demoMesh.id))
  have hscene : (split_object_for_plate demoBackend demoMesh 256 256 256 none 0 demoScene).2
      = (((split_step demoBackend demoMesh demoMesh.name 0
            (demoScene.emit (Event.readDims demoMesh.id))).2.2.emit
          (Event.readDims (split_step demoBackend demoMesh demoMesh.name 0
            (demoScene.emit (Event.readDims demoMesh.id))).1.id)).emit
          (Event.readDims (split_step demoBackend demoMesh demoMesh.name 0
            (demoScene.emit (Event.readDims demoMesh.id))).2.1.id)) := by
    show (split_levels demoBackend demoMesh 256 256 256 none 5 demoScene).2 = _
    rw [show (5 : Nat) = 4 + 1 from rfl,
      split_levels_split demoBackend demoMesh 256 256 256 none 4 demoScene hnf]
    dsimp only
    rw [hax]
    simp only [Option.getD_none]
    rw [split_levels_fit demoBackend _ 256 256 256 (some (demoMesh.name ++ "_sec1")) 3 _ h1fit]
    dsimp only
    rw [split_levels_fit demoBackend _ 256 256 256 (some (demoMesh.name ++ "_sec2")) 3 _ h2fit]
  refine ⟨[Event.readDims demoMesh.id]
      ++ cut_trace demoMesh demoMesh.name 0 (demoScene.emit (Event.readDims demoMesh.id)).nextId
      ++ (other_axes_of 0).map (fun _ => Event.readDims demoMesh.id)
      ++ t0
      ++ [Event.readDims (split_step demoBackend demoMesh demoMesh.name 0
            (demoScene.emit (Event.readDims demoMesh.id))).1.id,
          Event.readDims (split_step demoBackend demoMesh demoMesh.name 0
            (demoScene.emit (Event.readDims demoMesh.id))).2.1.id], ?_, ?_, ?_, ?_⟩
  · have hev : ∀ (sc : Scene) (e1 e2 : Event),
        ((sc.emit e1).emit e2).events = sc.events ++ [e1, e2] := by
      intro sc e1 e2
      simp [Scene.emit]
    rw [hscene, hev, ht0]
    simp [Scene.emit, List.append_assoc]
  · simp only [hole_call_args_append, cut_trace_hole_args, hole_call_args_readDims,
      hole_call_args_one_readDims, ht0h, hoa, List.nil_append, List.append_nil]
    rw [show hole_call_args [Event.readDims (split_step demoBackend demoMesh demoMesh.name 0
          (demoScene.emit (Event.readDims demoMesh.id))).1.id,
        Event.readDims (split_step demoBackend demoMesh demoMesh.name 0
          (demoScene.emit (Event.readDims demoMesh.id))).2.1.id] = [] from rfl]
    simp [Vec3.set, Vec3.zero]
  · simp only [post_call_args_append, cut_trace_post_args, post_call_args_readDims,
      post_call_args_one_readDims, ht0p, hoa, List.nil_append, List.append_nil]
    rw [show post_call_args [Event.readDims (split_step demoBackend demoMesh demoMesh.name 0
          (demoScene.emit (Event.readDims demoMesh.id))).1.id,
        Event.readDims (split_step demoBackend demoMesh demoMesh.name 0
          (demoScene.emit (Event.readDims demoMesh.id))).2.1.id] = [] from rfl]
    simp [Vec3.set, Vec3.zero]
  · intro hc
    injection hc with h1 h2 h3
    norm_num [Vec3.neg] at h1

end Shardplate
